import Mathlib

/-!
Verification development for the NinjaFruit arcade game core
(`src/game.c`; the compiled translation unit defines its own constants and
does not include `game.h`, so `MAX_FRUITS = 203` from `game.c` is the
authoritative pool capacity).

Embedding conventions:
* C `float` arithmetic is modelled over exact rationals `ℚ`; every
  arithmetic step mirrors the source expression and evaluation order.
* The transcendental library calls (`cos`, `sin`, `atan2`, `sqrt`, `M_PI`)
  are abstracted into a parameter record `FloatOps`: no verified claim
  depends on their numeric values, only on the surrounding control flow.
  Magnitude comparisons of the form `sqrt e > c` with `c ≥ 0` are modelled
  by the exact equivalent `e > c^2`.
* `rand()` is modelled by consuming a list of naturals (`drawR`), head
  first, yielding `0` once the list is exhausted; conditional `rand()`
  calls consume a draw exactly when the source does (short-circuiting
  `||` included).  Where C leaves the evaluation order of `rand()` calls
  inside an argument list unspecified, the model fixes left-to-right order.
* The fixed-size C arrays (`gameObjects`, `leaderboard`) are modelled as
  Lean lists; loops over `MAX_FRUITS` become list traversals.
-/

namespace NinjaFruit

/-- WINDOW_WIDTH from game.c. -/
def WINDOW_WIDTH : ℚ := 800

/-- WINDOW_HEIGHT from game.c. -/
def WINDOW_HEIGHT : ℚ := 600

/-- FRUIT_SIZE from game.c. -/
def FRUIT_SIZE : ℚ := 64

/-- MAX_FRUITS from game.c (the translation unit defines 203). -/
def MAX_FRUITS : ℕ := 203

/-- MAX_SCORES from game.c. -/
def MAX_SCORES : ℕ := 10

/-- SLICE_DURATION from game.c, in frames. -/
def SLICE_DURATION : ℤ := 30

/-- Game states, mirroring the `GameState` enum. -/
inductive GState
  | Playing
  | GameOver
  | Leaderboard
deriving DecidableEq, Repr

/-- Object kinds, mirroring the `ObjectType` enum. -/
inductive ObjectType
  | APPLE
  | BANANA
  | ORANGE
  | BOMB
deriving DecidableEq, Repr

/-- One slice fragment, mirroring `struct SlicePiece`. -/
structure SlicePiece where
  x : ℚ
  y : ℚ
  vx : ℚ
  vy : ℚ
  rotation : ℚ
  rotSpeed : ℚ
  timeLeft : ℤ
deriving DecidableEq, Repr

/-- One pool slot, mirroring `struct GameObject` (`pieces[SLICE_PIECES]`
with `SLICE_PIECES = 2` is modelled as a pair). -/
structure GameObject where
  x : ℚ
  y : ℚ
  vx : ℚ
  vy : ℚ
  active : Bool
  type : ObjectType
  sliced : Bool
  rotation : ℚ
  rotSpeed : ℚ
  pieces : SlicePiece × SlicePiece
deriving DecidableEq, Repr

/-- Abstract interface for the float library functions used by game.c.
The claims verified here are independent of the numeric behaviour of
these operations. -/
structure FloatOps where
  cosQ : ℚ → ℚ
  sinQ : ℚ → ℚ
  atan2Q : ℚ → ℚ → ℚ
  sqrtQ : ℚ → ℚ
  piQ : ℚ

/-- Deterministic model of the C `rand()` stream: the head of the list is
the next value (0 once exhausted). -/
def drawR : List ℕ → ℕ × List ℕ
  | [] => (0, [])
  | r :: rs => (r, rs)

/-! ## Physics integrator (`updateGame`, game.c lines 1799-1851) -/

/-- Fragment update from the body of `updateGame`: pieces with
`timeLeft > 0` get the heavier gravity increment 0.45 on `vy`, then move
by the updated velocity, rotate, and count down. -/
def stepPiece (p : SlicePiece) : SlicePiece :=
  if p.timeLeft > 0 then
    { p with
      vy := p.vy + 9/20
      x := p.x + p.vx
      y := p.y + (p.vy + 9/20)
      rotation := p.rotation + p.rotSpeed
      timeLeft := p.timeLeft - 1 }
  else p

/-- Out-of-bounds test from `updateGame` (game.c lines 1826-1828): below
the bottom edge by more than FRUIT_SIZE, or beyond the left/right edges by
more than FRUIT_SIZE.  The top edge is not tested in the source. -/
def outOfBounds (x y : ℚ) : Bool :=
  decide (y > WINDOW_HEIGHT + FRUIT_SIZE) ||
  decide (x < -FRUIT_SIZE) ||
  decide (x > WINDOW_WIDTH + FRUIT_SIZE)

/-- Retirement guard from `updateGame` (game.c lines 1830-1842): an
unsliced object is always done animating; a sliced one is done when
neither fragment has `timeLeft > 0`. -/
def animationDone (o : GameObject) : Bool :=
  !o.sliced || (decide (o.pieces.1.timeLeft ≤ 0) && decide (o.pieces.2.timeLeft ≤ 0))

/-- Per-slot body of the `updateGame` loop (game.c lines 1799-1852):
gravity 0.3 on `vy`, then position += (updated) velocity, rotation
advance, fragment animation for sliced objects, and bounds-exit
retirement gated by `animationDone`. -/
def updateObject (o : GameObject) : GameObject :=
  if o.active then
    let o1 : GameObject :=
      { o with
        vy := o.vy + 3/10
        x := o.x + o.vx
        y := o.y + (o.vy + 3/10)
        rotation := o.rotation + o.rotSpeed }
    let o2 : GameObject :=
      if o1.sliced then
        { o1 with pieces := (stepPiece o1.pieces.1, stepPiece o1.pieces.2) }
      else o1
    if outOfBounds o2.x o2.y then
      if animationDone o2 then { o2 with active := false } else o2
    else o2
  else o

/-! ## Session state and `updateGame` -/

/-- Shared session state touched by `handleEvents` / `updateGame`.
`emitted` is the trace of calls to the leaderboard sink `addScore`
(argument = the score passed), recording each persistence-record
emission in order. -/
structure SessionState where
  gameObjects : List GameObject
  score : ℤ
  health : ℤ
  game_time : ℤ
  game_state : GState
  mouse_x : ℤ
  mouse_y : ℤ
  prev_mouse_x : ℤ
  prev_mouse_y : ℤ
  mouse_down : Bool
  emitted : List ℤ
deriving DecidableEq, Repr

/-- The `updateGame` function (game.c lines 1780-1857).  Everything is
gated by `game_state == STATE_PLAYING`; inside the gate the timer is
recomputed, a defensive `health <= 0` check transitions to game over and
emits the score, and every active slot is advanced by `updateObject`.
`current_time` / `start_time` are the millisecond clocks read by the
source. -/
def updateGame (current_time start_time : ℤ) (s : SessionState) : SessionState :=
  if s.game_state = GState.Playing then
    let s1 : SessionState := { s with game_time := (current_time - start_time) / 1000 }
    let s2 : SessionState :=
      if s1.health ≤ 0 then
        { s1 with game_state := GState.GameOver, emitted := s1.emitted ++ [s1.score] }
      else s1
    { s2 with gameObjects := s2.gameObjects.map updateObject }
  else s

/-! ## Claim C8: gravity-before-position ordering of the physics tick -/

/-- Claim C8: starting a Playing-state tick with an active unsliced
object at (100, 0) with velocity (0, 5), `updateGame` first adds the
gravity increment 0.3 to `vy` and then adds the updated `vy` to `y`
(and `vx` to `x`), leaving the object at (100, 5.3) with `vy = 5.3` and
rotation advanced by `rotSpeed`. -/
theorem apple_tick_position (ct st : ℤ) (ty : ObjectType) (rot rs : ℚ)
    (ps : SlicePiece × SlicePiece) (sc ht gt : ℤ) (mx my pmx pmy : ℤ) (md : Bool)
    (em : List ℤ) (hhealth : 0 < ht) :
    (updateGame ct st
      { gameObjects := [⟨100, 0, 0, 5, true, ty, false, rot, rs, ps⟩],
        score := sc, health := ht, game_time := gt, game_state := GState.Playing,
        mouse_x := mx, mouse_y := my, prev_mouse_x := pmx, prev_mouse_y := pmy,
        mouse_down := md, emitted := em }).gameObjects =
      [⟨100, 53/10, 0, 53/10, true, ty, false, rot + rs, rs, ps⟩] := by
  have hht : ¬ (ht ≤ 0) := by omega
  simp only [updateGame, if_pos rfl, hht, if_false, List.map]
  simp [updateObject, outOfBounds, WINDOW_HEIGHT, WINDOW_WIDTH, FRUIT_SIZE]
  norm_num

/-- Witness for `apple_tick_position` at concrete inputs. -/
theorem apple_tick_position_witness :
    (0:ℤ) < 3 ∧
    (updateGame 0 0
      { gameObjects := [⟨100, 0, 0, 5, true, ObjectType.APPLE, false, 0, 1, (⟨0,0,0,0,0,0,0⟩, ⟨0,0,0,0,0,0,0⟩)⟩],
        score := 0, health := 3, game_time := 0, game_state := GState.Playing,
        mouse_x := 0, mouse_y := 0, prev_mouse_x := 0, prev_mouse_y := 0,
        mouse_down := false, emitted := [] }).gameObjects =
      [⟨100, 53/10, 0, 53/10, true, ObjectType.APPLE, false, 0 + 1, 1, (⟨0,0,0,0,0,0,0⟩, ⟨0,0,0,0,0,0,0⟩)⟩] :=
  ⟨by decide, apple_tick_position 0 0 ObjectType.APPLE 0 1 (⟨0,0,0,0,0,0,0⟩, ⟨0,0,0,0,0,0,0⟩) 0 3 0 0 0 0 0 false [] (by decide)⟩

/-! ## Claim C5: bounds-exit retirement -/

/-- Modelled from the spec's words for comparison with the source
(`Retirement check: a slot exits the playfield when its position leaves a
rectangle padded by one object's size in all four directions`): outside
the window rectangle padded by FRUIT_SIZE on all four edges, top
included. -/
def specPaddedExit (x y : ℚ) : Bool :=
  decide (x < -FRUIT_SIZE) ||
  decide (x > WINDOW_WIDTH + FRUIT_SIZE) ||
  decide (y < -FRUIT_SIZE) ||
  decide (y > WINDOW_HEIGHT + FRUIT_SIZE)

/-- Zero-initialised slice fragment, used for concrete test slots. -/
def pieceZero : SlicePiece := ⟨0, 0, 0, 0, 0, 0, 0⟩

/-- Counterexample to claim C5 as stated: an active unsliced object at
(100, -200) is outside the four-edge padded rectangle after the tick
(it is more than FRUIT_SIZE above the top edge), yet `updateObject`
keeps it active, because the source checks only the bottom, left and
right edges. -/
theorem top_exit_not_retired :
    specPaddedExit
        (updateObject ⟨100, -200, 0, 0, true, ObjectType.APPLE, false, 0, 0,
          (pieceZero, pieceZero)⟩).x
        (updateObject ⟨100, -200, 0, 0, true, ObjectType.APPLE, false, 0, 0,
          (pieceZero, pieceZero)⟩).y = true ∧
      (updateObject ⟨100, -200, 0, 0, true, ObjectType.APPLE, false, 0, 0,
        (pieceZero, pieceZero)⟩).active = true := by
  norm_num [updateObject, outOfBounds, specPaddedExit, animationDone,
    WINDOW_WIDTH, WINDOW_HEIGHT, FRUIT_SIZE]

/-- Claim C5 amended: an active unsliced slot retires in a tick exactly
when its post-move position leaves the rectangle padded by FRUIT_SIZE
beyond the bottom, left and right window edges (`y > H + S`, `x < -S` or
`x > W + S`); the top edge is not part of the check. -/
theorem retirement_iff_bounds (o : GameObject) (ha : o.active = true)
    (hs : o.sliced = false) :
    (updateObject o).active = false ↔
      outOfBounds (o.x + o.vx) (o.y + (o.vy + 3/10)) = true := by
  simp only [updateObject, ha, if_pos, hs]
  by_cases hob : outOfBounds (o.x + o.vx) (o.y + (o.vy + 3/10)) = true
  · simp [hob, animationDone, hs]
  · simp only [Bool.not_eq_true] at hob
    simp [hob, ha]

/-- Witness for `retirement_iff_bounds`: an active unsliced apple 100
pixels below the bottom padding retires. -/
theorem retirement_iff_bounds_witness :
    (updateObject
        ⟨100, 700, 0, 0, true, ObjectType.APPLE, false, 0, 0,
          (⟨0,0,0,0,0,0,0⟩, ⟨0,0,0,0,0,0,0⟩)⟩).active = false ↔
      outOfBounds (100 + 0) (700 + (0 + 3/10)) = true :=
  retirement_iff_bounds
    ⟨100, 700, 0, 0, true, ObjectType.APPLE, false, 0, 0,
      (⟨0,0,0,0,0,0,0⟩, ⟨0,0,0,0,0,0,0⟩)⟩ rfl rfl

/-! ## Claim C6: sliced slots wait for both fragments -/

/-- Claim C6: an active sliced slot whose post-move position is outside
the (source's) playfield bounds becomes inactive in that tick exactly
when both fragment countdowns have reached zero after the tick's
fragment update; if either fragment still has time left, the slot stays
active. -/
theorem sliced_retire_iff_pieces_done (o : GameObject) (ha : o.active = true)
    (hs : o.sliced = true)
    (hb : outOfBounds (o.x + o.vx) (o.y + (o.vy + 3/10)) = true)
    (h1 : 0 ≤ o.pieces.1.timeLeft) (h2 : 0 ≤ o.pieces.2.timeLeft) :
    (updateObject o).active = false ↔
      ((stepPiece o.pieces.1).timeLeft = 0 ∧ (stepPiece o.pieces.2).timeLeft = 0) := by
  have estep : ∀ p : SlicePiece, 0 ≤ p.timeLeft → 0 ≤ (stepPiece p).timeLeft := by
    intro p hp
    by_cases hc : p.timeLeft > 0 <;> simp [stepPiece, hc] <;> omega
  obtain ⟨x, y, vx, vy, act, ty, sl, rot, rs, p1, p2⟩ := o
  simp only at ha hs hb h1 h2
  subst ha hs
  have e1 : 0 ≤ (stepPiece p1).timeLeft := estep p1 h1
  have e2 : 0 ≤ (stepPiece p2).timeLeft := estep p2 h2
  simp only [updateObject, if_true, hb, animationDone, Bool.not_true, Bool.false_or,
    Bool.and_eq_true, decide_eq_true_eq]
  split
  · rename_i hc
    have hz : (stepPiece p1).timeLeft = 0 ∧ (stepPiece p2).timeLeft = 0 := by omega
    simp [hz]
  · rename_i hc
    have hn : ¬ ((stepPiece p1).timeLeft = 0 ∧ (stepPiece p2).timeLeft = 0) := by omega
    simp [hn]

/-- Witness for `sliced_retire_iff_pieces_done`: a sliced object below
the bottom padding with one fragment still counting down (timeLeft = 1
before the tick) stays active. -/
theorem sliced_retire_iff_pieces_done_witness :
    (updateObject
        ⟨100, 700, 0, 0, true, ObjectType.APPLE, true, 0, 0,
          (⟨0,0,0,0,0,0,1⟩, ⟨0,0,0,0,0,0,0⟩)⟩).active = false ↔
      ((stepPiece (⟨0,0,0,0,0,0,1⟩ : SlicePiece)).timeLeft = 0 ∧
        (stepPiece (⟨0,0,0,0,0,0,0⟩ : SlicePiece)).timeLeft = 0) :=
  sliced_retire_iff_pieces_done
    ⟨100, 700, 0, 0, true, ObjectType.APPLE, true, 0, 0,
      (⟨0,0,0,0,0,0,1⟩, ⟨0,0,0,0,0,0,0⟩)⟩ rfl rfl
    (by norm_num [outOfBounds, WINDOW_HEIGHT, FRUIT_SIZE, WINDOW_WIDTH])
    (by decide) (by decide)

/-! ## Collision / slice resolver (`handleEvents` mouse-motion branch,
game.c lines 1449-1709) -/

/-- Truncation of a rational toward zero, modelling C float-to-int
conversion. -/
def truncQ (q : ℚ) : ℤ := Int.tdiv q.num q.den

/-- The `lineCircleIntersect` function (game.c lines 1276-1314):
swept-segment versus circle test; a zero-length segment degenerates to a
point-in-circle test. -/
def lineCircleIntersect (lx1 ly1 lx2 ly2 cx cy radius : ℚ) : Bool :=
  let dx := cx - lx1
  let dy := cy - ly1
  let ldx := lx2 - lx1
  let ldy := ly2 - ly1
  let len2 := ldx * ldx + ldy * ldy
  if len2 = 0 then decide (dx * dx + dy * dy ≤ radius * radius)
  else
    let t0 := (dx * ldx + dy * ldy) / len2
    let t1 := if t0 < 0 then 0 else t0
    let t2 := if t1 > 1 then 1 else t1
    let closeX := lx1 + t2 * ldx
    let closeY := ly1 + t2 * ldy
    let distX := closeX - cx
    let distY := closeY - cy
    decide (distX * distX + distY * distY ≤ radius * radius)

/-- The `checkCollision` function (game.c lines 1317-1436): banana
rotated-box special case, orange circle special case, then the generic
enlarged box, per-kind circle, and the speed-compensated look-ahead
retest for fast objects (`sqrt v > 5` is modelled exactly as `v > 25`). -/
def checkCollision (F : FloatOps) (slice_x slice_y : ℚ) (o : GameObject) : Bool :=
  let cx := o.x + FRUIT_SIZE / 2
  let cy := o.y + FRUIT_SIZE / 2
  let bananaBoxHit : Bool :=
    if o.type = ObjectType.BANANA then
      let bw := FRUIT_SIZE * (8/5)
      let bh := FRUIT_SIZE * (4/5)
      let offx := F.cosQ o.rotation * (FRUIT_SIZE * (1/5))
      let offy := F.sinQ o.rotation * (FRUIT_SIZE * (1/10))
      let bl := cx - bw / 2 + offx
      let bt := cy - bh / 2 + offy
      decide (bl ≤ slice_x) && decide (slice_x ≤ bl + bw) &&
        decide (bt ≤ slice_y) && decide (slice_y ≤ bt + bh)
    else false
  let orangeCircleHit : Bool :=
    if o.type = ObjectType.ORANGE then
      let dx := slice_x - cx
      let dy := slice_y - cy
      decide (dx * dx + dy * dy < (FRUIT_SIZE * (11/20)) * (FRUIT_SIZE * (11/20)))
    else false
  if bananaBoxHit then true
  else if orangeCircleHit then true
  else
    let scale : ℚ := if o.type = ObjectType.BANANA ∨ o.type = ObjectType.ORANGE then 13/10 else 6/5
    let bl := o.x - FRUIT_SIZE * (scale - 1) / 2
    let bt := o.y - FRUIT_SIZE * (scale - 1) / 2
    let bw := FRUIT_SIZE * scale
    let bh := FRUIT_SIZE * scale
    if decide (bl ≤ slice_x) && decide (slice_x ≤ bl + bw) &&
        decide (bt ≤ slice_y) && decide (slice_y ≤ bt + bh) then true
    else
      let dx := slice_x - cx
      let dy := slice_y - cy
      let d2 := dx * dx + dy * dy
      let hr : ℚ :=
        match o.type with
        | ObjectType.APPLE => FRUIT_SIZE * (3/5)
        | ObjectType.ORANGE => FRUIT_SIZE * (11/20)
        | ObjectType.BANANA => FRUIT_SIZE * (3/4)
        | ObjectType.BOMB => FRUIT_SIZE * (1/2)
      if decide (d2 < hr * hr) then true
      else
        let vmag2 := o.vx * o.vx + o.vy * o.vy
        if decide (vmag2 > 25) then
          let bonus : ℚ := if o.type = ObjectType.BANANA ∨ o.type = ObjectType.ORANGE then 1/4 else 1/5
          let hr2 := hr + F.sqrtQ vmag2 * bonus
          let vdx := slice_x - (cx + o.vx * (3/20))
          let vdy := slice_y - (cy + o.vy * (3/20))
          decide (vdx * vdx + vdy * vdy < hr2 * hr2)
        else false

/-- Resolver-pass effect state: the session counters mutated while the
two collision passes run, together with the emission trace and the
random stream. -/
structure Fx where
  score : ℤ
  health : ℤ
  game_state : GState
  emitted : List ℤ
  rng : List ℕ
deriving DecidableEq, Repr

/-- One slice fragment as created at a confirmed hit (game.c lines
1506-1520 and the two identical copies): pieces move at ±90° from the
slice direction with a randomized speed, inherit half the parent's
vertical velocity, spin opposite ways, and live SLICE_DURATION frames. -/
def mkSlicePiece (F : FloatOps) (sliceAngle cx cy parentVy parentRot parentRotSpeed : ℚ)
    (j0 : Bool) (r : ℕ) : SlicePiece :=
  let pieceAngle := sliceAngle + (if j0 then F.piQ / 2 else -(F.piQ / 2))
  let speed := (2 + ((r % 20 : ℕ) : ℚ) / 10) * (3/2)
  { x := cx
    y := cy
    vx := F.cosQ pieceAngle * speed
    vy := F.sinQ pieceAngle * speed + parentVy / 2
    rotation := parentRot
    rotSpeed := parentRotSpeed * 2 * (if j0 then 1 else -1)
    timeLeft := SLICE_DURATION }

/-- Mutation of one object at a confirmed hit: set `sliced`, build both
fragments from the slice angle; `r1`, `r2` are the two `rand()` speed
draws. -/
def sliceObjectHit (F : FloatOps) (pmx pmy mx my : ℤ) (o : GameObject) (r1 r2 : ℕ) : GameObject :=
  let sliceAngle := F.atan2Q ((my : ℚ) - (pmy : ℚ)) ((mx : ℚ) - (pmx : ℚ))
  let cx := o.x + FRUIT_SIZE / 2
  let cy := o.y + FRUIT_SIZE / 2
  { o with
    sliced := true
    pieces := (mkSlicePiece F sliceAngle cx cy o.vy o.rotation o.rotSpeed true r1,
               mkSlicePiece F sliceAngle cx cy o.vy o.rotation o.rotSpeed false r2) }

/-- Score/health/state effect of slicing an object of kind `ty`
(game.c lines 1599-1621): a bomb decrements health and, at zero, clamps
health, transitions to game over and emits the score to the leaderboard
sink; anything else scores one point. -/
def hitEffects (ty : ObjectType) (fx : Fx) : Fx :=
  if ty = ObjectType.BOMB then
    if fx.health - 1 ≤ 0 then
      { fx with health := 0, game_state := GState.GameOver, emitted := fx.emitted ++ [fx.score] }
    else { fx with health := fx.health - 1 }
  else { fx with score := fx.score + 1 }

/-- Full per-object consequence of a confirmed hit: slice the object
(consuming the two fragment-speed draws) and apply the kind effects. -/
def applyHit (F : FloatOps) (pmx pmy mx my : ℤ) (o : GameObject) (fx : Fx) : GameObject × Fx :=
  let d1 := drawR fx.rng
  let d2 := drawR d1.2
  let o' := sliceObjectHit F pmx pmy mx my o d1.1 d2.1
  (o', hitEffects o.type { fx with rng := d2.2 })

/-- Pass-1 hit predicate (game.c lines 1478-1573): swept-line versus a
per-kind circle; bananas use radius 0.8·SIZE and an extra
rotation-offset center, oranges 0.55·SIZE, everything else 0.7·SIZE. -/
def pass1Hit (F : FloatOps) (pmx pmy mx my : ℤ) (o : GameObject) : Bool :=
  let cx := o.x + FRUIT_SIZE / 2
  let cy := o.y + FRUIT_SIZE / 2
  match o.type with
  | ObjectType.BANANA =>
    let offx := F.cosQ o.rotation * (FRUIT_SIZE * (1/5))
    let offy := F.sinQ o.rotation * (FRUIT_SIZE * (1/10))
    lineCircleIntersect (pmx : ℚ) (pmy : ℚ) (mx : ℚ) (my : ℚ)
        (cx + offx) (cy + offy) (FRUIT_SIZE * (4/5)) ||
      lineCircleIntersect (pmx : ℚ) (pmy : ℚ) (mx : ℚ) (my : ℚ) cx cy (FRUIT_SIZE * (4/5))
  | ObjectType.ORANGE =>
    lineCircleIntersect (pmx : ℚ) (pmy : ℚ) (mx : ℚ) (my : ℚ) cx cy (FRUIT_SIZE * (11/20))
  | _ =>
    lineCircleIntersect (pmx : ℚ) (pmy : ℚ) (mx : ℚ) (my : ℚ) cx cy (FRUIT_SIZE * (7/10))

/-- One slot of the pass-1 loop: an active, not-yet-sliced object whose
per-kind swept test confirms is sliced; everything else is untouched.
The `Bool` component models the per-event `sliced_objects[i]` marker. -/
def pass1Step (F : FloatOps) (pmx pmy mx my : ℤ) (oc : GameObject × Bool) (fx : Fx) :
    (GameObject × Bool) × Fx :=
  if oc.1.active && !oc.1.sliced && !oc.2 && pass1Hit F pmx pmy mx my oc.1 then
    let r := applyHit F pmx pmy mx my oc.1 fx
    ((r.1, true), r.2)
  else (oc, fx)

/-- One slot of the pass-2 loop at sample `t` of 12 (game.c lines
1630-1697): the interpolated sample point is truncated to ints as in the
source, then `checkCollision` decides the hit. -/
def pass2Step (F : FloatOps) (pmx pmy mx my : ℤ) (t : ℕ) (oc : GameObject × Bool) (fx : Fx) :
    (GameObject × Bool) × Fx :=
  let lerp : ℚ := (t : ℚ) / 12
  let sx : ℤ := truncQ ((pmx : ℚ) + ((mx : ℚ) - (pmx : ℚ)) * lerp)
  let sy : ℤ := truncQ ((pmy : ℚ) + ((my : ℚ) - (pmy : ℚ)) * lerp)
  if oc.1.active && !oc.1.sliced && !oc.2 && checkCollision F (sx : ℚ) (sy : ℚ) oc.1 then
    let r := applyHit F pmx pmy mx my oc.1 fx
    ((r.1, true), r.2)
  else (oc, fx)

/-- Map with a threaded accumulator, left to right: the shape of both
collision-pass loops. -/
def mapAccuml (f : α → σ → α × σ) : List α → σ → List α × σ
  | [], s => ([], s)
  | a :: as, s =>
    let b := f a s
    let rest := mapAccuml f as b.2
    (b.1 :: rest.1, rest.2)

/-- One full pass-2 round: all slots tested at sample `t`. -/
def pass2Round (F : FloatOps) (pmx pmy mx my : ℤ) (t : ℕ)
    (p : List (GameObject × Bool) × Fx) : List (GameObject × Bool) × Fx :=
  mapAccuml (pass2Step F pmx pmy mx my t) p.1 p.2

/-- The complete resolver body run under the mutex for one motion event:
pass 1 over all slots, then pass 2 for samples t = 0..12. -/
def resolveSlice (F : FloatOps) (pmx pmy mx my : ℤ) (objs : List (GameObject × Bool))
    (fx : Fx) : List (GameObject × Bool) × Fx :=
  (List.range 13).foldl (fun p t => pass2Round F pmx pmy mx my t p)
    (mapAccuml (pass1Step F pmx pmy mx my) objs fx)

/-- Mouse-position bookkeeping done at every SDL_MOUSEMOTION event
(game.c lines 1451-1457): previous position saved, current updated. -/
def motionState (s : SessionState) (nx ny : ℤ) : SessionState :=
  { s with prev_mouse_x := s.mouse_x, prev_mouse_y := s.mouse_y, mouse_x := nx, mouse_y := ny }

/-- Write-back of the resolver result into the session (the shared
variables mutated under the mutex, plus the slice-trail flag). -/
def mergeResolved (s1 : SessionState) (r : List (GameObject × Bool) × Fx) : SessionState :=
  { s1 with
    gameObjects := r.1.map Prod.fst
    score := r.2.score
    health := r.2.health
    game_state := r.2.game_state
    emitted := r.2.emitted
    mouse_down := true }

/-- The SDL_MOUSEMOTION branch of `handleEvents` (game.c lines
1449-1709): previous and current mouse positions are always updated;
only in the Playing state, and only when the squared displacement
exceeds 5² (the source compares the `sqrt` of the squared displacement
of ints against 5, which is exact), does the resolver run. -/
def handleMouseMotion (F : FloatOps) (nx ny : ℤ) (rng : List ℕ) (s : SessionState) :
    SessionState :=
  if s.game_state = GState.Playing then
    if (nx - s.mouse_x) * (nx - s.mouse_x) + (ny - s.mouse_y) * (ny - s.mouse_y) > 25 then
      mergeResolved (motionState s nx ny)
        (resolveSlice F s.mouse_x s.mouse_y nx ny (s.gameObjects.map (fun o => (o, false)))
          { score := s.score, health := s.health, game_state := s.game_state,
            emitted := s.emitted, rng := rng })
    else { motionState s nx ny with mouse_down := false }
  else motionState s nx ny

/-! ## Claim C2: health floor -/

/-- Accumulator invariants survive `mapAccuml`. -/
theorem mapAccuml_snd_inv {α σ : Type} {f : α → σ → α × σ} (P : σ → Prop)
    (hf : ∀ a s, P s → P ((f a s).2)) :
    ∀ (l : List α) (s : σ), P s → P (mapAccuml f l s).2 := by
  intro l
  induction l with
  | nil => intro s hs; simpa [mapAccuml] using hs
  | cons a as ih => intro s hs; simpa [mapAccuml] using ih _ (hf a s hs)

/-- Hit effects never drive health negative. -/
theorem hitEffects_health_nonneg (ty : ObjectType) (fx : Fx) (h : 0 ≤ fx.health) :
    0 ≤ (hitEffects ty fx).health := by
  unfold hitEffects
  split
  · split
    · simp
    · simp
      omega
  · simpa using h

/-- Nonnegative health is preserved by one pass-1 slot step. -/
theorem pass1Step_health (F : FloatOps) (pmx pmy mx my : ℤ) (oc : GameObject × Bool) (fx : Fx)
    (h : 0 ≤ fx.health) : 0 ≤ ((pass1Step F pmx pmy mx my oc fx).2).health := by
  simp only [pass1Step]
  split
  · exact hitEffects_health_nonneg _ _ (by simpa using h)
  · simpa using h

/-- Nonnegative health is preserved by one pass-2 slot step. -/
theorem pass2Step_health (F : FloatOps) (pmx pmy mx my : ℤ) (t : ℕ) (oc : GameObject × Bool)
    (fx : Fx) (h : 0 ≤ fx.health) : 0 ≤ ((pass2Step F pmx pmy mx my t oc fx).2).health := by
  simp only [pass2Step]
  split
  · exact hitEffects_health_nonneg _ _ (by simpa using h)
  · simpa using h

/-- Nonnegative health is preserved by the whole resolver body. -/
theorem resolveSlice_health (F : FloatOps) (pmx pmy mx my : ℤ)
    (objs : List (GameObject × Bool)) (fx : Fx) (h : 0 ≤ fx.health) :
    0 ≤ ((resolveSlice F pmx pmy mx my objs fx).2).health := by
  unfold resolveSlice
  have hrounds : ∀ (ts : List ℕ) (p : List (GameObject × Bool) × Fx), 0 ≤ p.2.health →
      0 ≤ ((ts.foldl (fun p t => pass2Round F pmx pmy mx my t p) p).2).health := by
    intro ts
    induction ts with
    | nil => intro p hp; simpa using hp
    | cons t ts ih =>
      intro p hp
      exact ih _ (mapAccuml_snd_inv _ (fun oc fx => pass2Step_health F pmx pmy mx my t oc fx) _ _ hp)
  exact hrounds _ _ (mapAccuml_snd_inv _ (fun oc fx => pass1Step_health F pmx pmy mx my oc fx) _ _ h)

/-- Claim C2: a bomb slice decrements health exactly once with a floor
of zero (the effect of each single bomb hit is `max (health - 1) 0`),
and a full pointer-motion resolver pass starting from nonnegative health
leaves health nonnegative, no matter how many bombs it slices. -/
theorem health_floor (F : FloatOps) (nx ny : ℤ) (rng : List ℕ) (s : SessionState) :
    (∀ fx : Fx, (hitEffects ObjectType.BOMB fx).health = max (fx.health - 1) 0) ∧
      (0 ≤ s.health → 0 ≤ (handleMouseMotion F nx ny rng s).health) := by
  constructor
  · intro fx
    unfold hitEffects
    by_cases hc : fx.health - 1 ≤ 0 <;> simp [hc] <;> omega
  · intro h
    unfold handleMouseMotion
    split
    · split
      · simp only [mergeResolved]
        exact resolveSlice_health F _ _ _ _ _ _ (by simpa using h)
      · simp only [motionState]
        simpa using h
    · simp only [motionState]
      simpa using h

/-- All-zero instantiation of the abstract float library, for concrete
evaluations. -/
def floatOpsZero : FloatOps := ⟨fun _ => 0, fun _ => 0, fun _ _ => 0, fun _ => 0, 0⟩

/-- Empty-pool Playing session with 3 health, for concrete evaluations. -/
def sessionZero : SessionState :=
  { gameObjects := [], score := 0, health := 3, game_time := 0, game_state := GState.Playing,
    mouse_x := 0, mouse_y := 0, prev_mouse_x := 0, prev_mouse_y := 0,
    mouse_down := false, emitted := [] }

/-- One-health effect state, for concrete evaluations. -/
def fxOne : Fx := ⟨0, 1, GState.Playing, [], []⟩

/-- Witness for `health_floor` at concrete inputs. -/
theorem health_floor_witness :
    (hitEffects ObjectType.BOMB fxOne).health = max (fxOne.health - 1) 0 ∧
      (0 : ℤ) ≤ sessionZero.health ∧
      0 ≤ (handleMouseMotion floatOpsZero 10 10 [] sessionZero).health :=
  ⟨(health_floor floatOpsZero 10 10 [] sessionZero).1 fxOne, by decide,
    (health_floor floatOpsZero 10 10 [] sessionZero).2 (by decide)⟩

/-! ## Claim C4: state-gated update -/

/-- One interaction with the session: a physics tick (`updateGame` with
its clock readings) or a pointer-motion event (`handleEvents` motion
branch with its new mouse position and random stream). -/
inductive GameOp
  | update (current_time start_time : ℤ)
  | motion (nx ny : ℤ) (rng : List ℕ)

/-- Apply one interaction. -/
def applyOp (F : FloatOps) : GameOp → SessionState → SessionState
  | GameOp.update ct st, s => updateGame ct st s
  | GameOp.motion nx ny rng, s => handleMouseMotion F nx ny rng s

/-- Apply a sequence of interactions, oldest first. -/
def applyOps (F : FloatOps) (ops : List GameOp) (s : SessionState) : SessionState :=
  ops.foldl (fun s op => applyOp F op s) s

/-- One interaction outside the Playing state changes none of the slots
or counters (and keeps the state itself). -/
theorem applyOp_not_playing (F : FloatOps) (op : GameOp) (s : SessionState)
    (h : s.game_state ≠ GState.Playing) :
    (applyOp F op s).gameObjects = s.gameObjects ∧
      (applyOp F op s).score = s.score ∧
      (applyOp F op s).health = s.health ∧
      (applyOp F op s).game_time = s.game_time ∧
      (applyOp F op s).game_state = s.game_state := by
  cases op with
  | update ct st =>
    simp [applyOp, updateGame, h]
  | motion nx ny rng =>
    simp [applyOp, handleMouseMotion, h, motionState]

/-- Claim C4: outside the Playing state, any sequence of physics ticks
and pointer-motion resolution calls leaves every slot (hence all
positions, velocities, rotations and fragment state) and the session
counters score, health and game_time unchanged, and the state itself
unchanged. -/
theorem state_gated_update (F : FloatOps) (ops : List GameOp) (s : SessionState)
    (h : s.game_state ≠ GState.Playing) :
    (applyOps F ops s).gameObjects = s.gameObjects ∧
      (applyOps F ops s).score = s.score ∧
      (applyOps F ops s).health = s.health ∧
      (applyOps F ops s).game_time = s.game_time ∧
      (applyOps F ops s).game_state = s.game_state := by
  induction ops generalizing s with
  | nil => simp [applyOps]
  | cons op rest ih =>
    have h1 := applyOp_not_playing F op s h
    have h2 := ih (applyOp F op s) (by rw [h1.2.2.2.2]; exact h)
    have hfold : applyOps F (op :: rest) s = applyOps F rest (applyOp F op s) := rfl
    rw [hfold]
    exact ⟨h2.1.trans h1.1, h2.2.1.trans h1.2.1, h2.2.2.1.trans h1.2.2.1,
      h2.2.2.2.1.trans h1.2.2.2.1, h2.2.2.2.2.trans h1.2.2.2.2⟩

/-- Game-over session used by witnesses. -/
def sessionOver : SessionState :=
  { sessionZero with game_state := GState.GameOver }

/-- Witness for `state_gated_update`: a game-over session is untouched
by a tick followed by a large motion event. -/
theorem state_gated_update_witness :
    sessionOver.game_state ≠ GState.Playing ∧
      ((applyOps floatOpsZero [GameOp.update 5000 0, GameOp.motion 50 50 []] sessionOver).gameObjects =
          sessionOver.gameObjects ∧
        (applyOps floatOpsZero [GameOp.update 5000 0, GameOp.motion 50 50 []] sessionOver).score =
          sessionOver.score ∧
        (applyOps floatOpsZero [GameOp.update 5000 0, GameOp.motion 50 50 []] sessionOver).health =
          sessionOver.health ∧
        (applyOps floatOpsZero [GameOp.update 5000 0, GameOp.motion 50 50 []] sessionOver).game_time =
          sessionOver.game_time ∧
        (applyOps floatOpsZero [GameOp.update 5000 0, GameOp.motion 50 50 []] sessionOver).game_state =
          sessionOver.game_state) :=
  ⟨by decide,
    state_gated_update floatOpsZero [GameOp.update 5000 0, GameOp.motion 50 50 []] sessionOver
      (by decide)⟩

/-! ## Claim C3: slice monotonicity -/

/-- `b` is the result of slicing `a` once: some motion segment and some
pair of fragment-speed draws produced it via `sliceObjectHit`. -/
def sliceOutcome (F : FloatOps) (a b : GameObject) : Prop :=
  ∃ pmx pmy mx my r1 r2, b = sliceObjectHit F pmx pmy mx my a r1 r2

/-- How one slot may evolve across collision testing: an already-sliced
slot is left completely unchanged, and otherwise the slot is either
untouched or transitions unsliced-to-sliced by exactly one application
of the slice mutation, preserving its kind. -/
def sliceEvolves (F : FloatOps) (a b : GameObject) : Prop :=
  (a.sliced = true → b = a) ∧
    (b = a ∨ (a.sliced = false ∧ b.sliced = true ∧ b.type = a.type ∧ sliceOutcome F a b))

/-- Pair-level version of `sliceEvolves`, on a slot together with its
per-event `sliced_objects` marker. -/
def sliceEvolvesP (F : FloatOps) (p q : GameObject × Bool) : Prop :=
  (p.1.sliced = true → q = p) ∧
    (q = p ∨ (p.1.sliced = false ∧ q.1.sliced = true ∧ q.1.type = p.1.type ∧
      sliceOutcome F p.1 q.1))

/-- The slice mutation flags the object as sliced. -/
theorem sliceObjectHit_sliced (F : FloatOps) (pmx pmy mx my : ℤ) (o : GameObject) (r1 r2 : ℕ) :
    (sliceObjectHit F pmx pmy mx my o r1 r2).sliced = true := rfl

/-- The slice mutation keeps the object's kind. -/
theorem sliceObjectHit_type (F : FloatOps) (pmx pmy mx my : ℤ) (o : GameObject) (r1 r2 : ℕ) :
    (sliceObjectHit F pmx pmy mx my o r1 r2).type = o.type := rfl

/-- Element-wise relations survive `mapAccuml` when every step respects
them pointwise regardless of the accumulator. -/
theorem mapAccuml_forall2 {α σ : Type} {f : α → σ → α × σ} {R : α → α → Prop}
    (hf : ∀ a s, R a ((f a s).1)) :
    ∀ (l : List α) (s : σ), List.Forall₂ R l (mapAccuml f l s).1 := by
  intro l
  induction l with
  | nil => intro s; exact List.Forall₂.nil
  | cons a as ih => intro s; exact List.Forall₂.cons (hf a s) (ih _)

/-- One pass-1 slot step realises `sliceEvolvesP`. -/
theorem pass1Step_evolves (F : FloatOps) (pmx pmy mx my : ℤ) (oc : GameObject × Bool) (fx : Fx) :
    sliceEvolvesP F oc ((pass1Step F pmx pmy mx my oc fx).1) := by
  unfold pass1Step
  split
  · rename_i hg
    simp only [Bool.and_eq_true, Bool.not_eq_true'] at hg
    refine ⟨fun hs => absurd hg.1.1.2 (by simp [hs]), Or.inr ?_⟩
    exact ⟨hg.1.1.2, rfl, rfl, pmx, pmy, mx, my, _, _, rfl⟩
  · exact ⟨fun _ => rfl, Or.inl rfl⟩

/-- One pass-2 slot step realises `sliceEvolvesP`. -/
theorem pass2Step_evolves (F : FloatOps) (pmx pmy mx my : ℤ) (t : ℕ) (oc : GameObject × Bool)
    (fx : Fx) : sliceEvolvesP F oc ((pass2Step F pmx pmy mx my t oc fx).1) := by
  simp only [pass2Step]
  split
  · rename_i hg
    simp only [Bool.and_eq_true, Bool.not_eq_true'] at hg
    refine ⟨fun hs => absurd hg.1.1.2 (by simp [hs]), Or.inr ?_⟩
    exact ⟨hg.1.1.2, rfl, rfl, pmx, pmy, mx, my, _, _, rfl⟩
  · exact ⟨fun _ => rfl, Or.inl rfl⟩

/-- `Forall₂` composes along a transitive relation. -/
theorem forall2_trans {α : Type} {R : α → α → Prop} (ht : ∀ a b c, R a b → R b c → R a c) :
    ∀ {l1 l2 l3 : List α}, List.Forall₂ R l1 l2 → List.Forall₂ R l2 l3 → List.Forall₂ R l1 l3 := by
  intro l1 l2 l3 h12
  induction h12 generalizing l3 with
  | nil => intro h23; cases h23; exact List.Forall₂.nil
  | cons hab h12' ih =>
    intro h23
    cases h23 with
    | cons hbc h23' => exact List.Forall₂.cons (ht _ _ _ hab hbc) (ih h23')

/-- `sliceEvolvesP` is transitive: once a step has sliced a slot, the
already-sliced clause forces every later step to leave it unchanged. -/
theorem sliceEvolvesP_trans (F : FloatOps) (a b c : GameObject × Bool)
    (hab : sliceEvolvesP F a b) (hbc : sliceEvolvesP F b c) : sliceEvolvesP F a c := by
  rcases hab with ⟨fixab, dab⟩
  rcases hbc with ⟨fixbc, dbc⟩
  rcases dab with hba | ⟨hnas, hbs, hty, hout⟩
  · subst hba
    exact ⟨fixbc, dbc⟩
  · have hcb : c = b := fixbc hbs
    subst hcb
    exact ⟨fun hs => absurd hs (by simp [hnas]), Or.inr ⟨hnas, hbs, hty, hout⟩⟩

/-- The whole resolver body relates input and output slot lists by
`sliceEvolvesP`. -/
theorem resolveSlice_evolves (F : FloatOps) (pmx pmy mx my : ℤ)
    (objs : List (GameObject × Bool)) (fx : Fx) :
    List.Forall₂ (sliceEvolvesP F) objs (resolveSlice F pmx pmy mx my objs fx).1 := by
  unfold resolveSlice
  have hrounds : ∀ (ts : List ℕ) (p : List (GameObject × Bool) × Fx),
      List.Forall₂ (sliceEvolvesP F) p.1
        ((ts.foldl (fun p t => pass2Round F pmx pmy mx my t p) p).1) := by
    intro ts
    induction ts with
    | nil =>
      intro p
      exact List.forall₂_same.mpr (fun a _ => ⟨fun _ => rfl, Or.inl rfl⟩)
    | cons t ts ih =>
      intro p
      have h1 : List.Forall₂ (sliceEvolvesP F) p.1 ((pass2Round F pmx pmy mx my t p).1) :=
        mapAccuml_forall2 (fun oc fx => pass2Step_evolves F pmx pmy mx my t oc fx) _ _
      exact forall2_trans (sliceEvolvesP_trans F) h1 (ih _)
  exact forall2_trans (sliceEvolvesP_trans F)
    (mapAccuml_forall2 (fun oc fx => pass1Step_evolves F pmx pmy mx my oc fx) _ _) (hrounds _ _)

/-- Transport the pair-level evolution relation down to bare slots. -/
theorem forall2_pairs_to_objs (F : FloatOps) :
    ∀ {l : List GameObject} {L : List (GameObject × Bool)},
      List.Forall₂ (sliceEvolvesP F) (l.map (fun o => (o, false))) L →
      List.Forall₂ (sliceEvolves F) l (L.map Prod.fst) := by
  intro l
  induction l with
  | nil =>
    intro L h
    cases h
    exact List.Forall₂.nil
  | cons a as ih =>
    intro L h
    cases h with
    | cons hab t =>
      rcases hab with ⟨fixab, dab⟩
      refine List.Forall₂.cons ⟨fun hs => by rw [fixab hs], ?_⟩ (ih t)
      rcases dab with hba | ⟨hnas, hbs, hty, hout⟩
      · exact Or.inl (by rw [hba])
      · exact Or.inr ⟨hnas, hbs, hty, hout⟩

/-- `sliceEvolves` is reflexive. -/
theorem sliceEvolves_refl (F : FloatOps) (a : GameObject) : sliceEvolves F a a :=
  ⟨fun _ => rfl, Or.inl rfl⟩

/-- `sliceEvolves` is transitive, because a sliced slot is frozen. -/
theorem sliceEvolves_trans (F : FloatOps) (a b c : GameObject)
    (hab : sliceEvolves F a b) (hbc : sliceEvolves F b c) : sliceEvolves F a c := by
  rcases hab with ⟨fixab, dab⟩
  rcases hbc with ⟨fixbc, dbc⟩
  rcases dab with hba | ⟨hnas, hbs, hty, hout⟩
  · subst hba
    exact ⟨fixbc, dbc⟩
  · have hcb : c = b := fixbc hbs
    subst hcb
    exact ⟨fun hs => absurd hs (by simp [hnas]), Or.inr ⟨hnas, hbs, hty, hout⟩⟩

/-- One motion event relates the slot lists by `sliceEvolves`. -/
theorem handleMouseMotion_evolves (F : FloatOps) (nx ny : ℤ) (rng : List ℕ) (s : SessionState) :
    List.Forall₂ (sliceEvolves F) s.gameObjects (handleMouseMotion F nx ny rng s).gameObjects := by
  unfold handleMouseMotion
  split
  · split
    · simp only [mergeResolved]
      exact forall2_pairs_to_objs F (resolveSlice_evolves F _ _ _ _ _ _)
    · simp only [motionState]
      exact List.forall₂_same.mpr (fun a _ => sliceEvolves_refl F a)
  · simp only [motionState]
    exact List.forall₂_same.mpr (fun a _ => sliceEvolves_refl F a)

/-- A sequence of motion events, oldest first. -/
def applyMotions (F : FloatOps) (evs : List (ℤ × ℤ × List ℕ)) (s : SessionState) : SessionState :=
  evs.foldl (fun s e => handleMouseMotion F e.1 e.2.1 e.2.2 s) s

/-- Claim C3: across any sequence of pointer-motion events, every slot
that is sliced is left completely unchanged by all further collision
testing (kind, fragments and the sliced flag included), and every slot
is sliced at most once — the only other evolution is a single
unsliced-to-sliced transition by one slice mutation, which preserves the
kind; hence score and health are affected at most once per object. -/
theorem slice_monotonic (F : FloatOps) (evs : List (ℤ × ℤ × List ℕ)) (s : SessionState) :
    List.Forall₂ (sliceEvolves F) s.gameObjects (applyMotions F evs s).gameObjects := by
  induction evs generalizing s with
  | nil => exact List.forall₂_same.mpr (fun a _ => sliceEvolves_refl F a)
  | cons e rest ih =>
    have hfold : applyMotions F (e :: rest) s =
        applyMotions F rest (handleMouseMotion F e.1 e.2.1 e.2.2 s) := rfl
    rw [hfold]
    exact forall2_trans (sliceEvolves_trans F)
      (handleMouseMotion_evolves F e.1 e.2.1 e.2.2 s) (ih _)

/-! ## Claim C1: one GameOver transition and one leaderboard record per
session.

The resolver loops of `handleEvents` do not re-check `game_state` after
a bomb slice transitions it to game over, and `health` is clamped back
to 0 on every bomb slice, so a second bomb sliced by the same motion
event while health is 1 re-enters the `health <= 0` branch and calls
`addScore` again.  The development below evaluates the embedded code on
that failing input: two bombs centred on the motion path, health 1. -/

/-- A bomb slot centred at (100, 100), directly on the test motion
path. -/
def bombTest : GameObject :=
  ⟨68, 68, 0, 0, true, ObjectType.BOMB, false, 0, 0, (pieceZero, pieceZero)⟩

/-- An unused pool slot. -/
def inactiveTest : GameObject :=
  ⟨0, 0, 0, 0, false, ObjectType.APPLE, false, 0, 0, (pieceZero, pieceZero)⟩

/-- Full 203-slot pool: two bombs, the rest free. -/
def poolC1 : List GameObject := bombTest :: bombTest :: List.replicate 201 inactiveTest

/-- Failing-input session: Playing, health 1, mouse at (90, 90). -/
def sessionC1 : SessionState :=
  { gameObjects := poolC1, score := 0, health := 1, game_time := 0,
    game_state := GState.Playing, mouse_x := 90, mouse_y := 90,
    prev_mouse_x := 0, prev_mouse_y := 0, mouse_down := false, emitted := [] }

/-- The bomb after being sliced by the test motion event (rng
exhausted, so both speed draws are 0). -/
def bombSliced : GameObject := sliceObjectHit floatOpsZero 90 90 110 110 bombTest 0 0

/-- Effect state after the first bomb: game over, one emission. -/
def fxGO1 : Fx := ⟨0, 0, GState.GameOver, [0], []⟩

/-- Effect state after the second bomb: a second emission of the same
session's score. -/
def fxGO2 : Fx := ⟨0, 0, GState.GameOver, [0, 0], []⟩

/-- The test motion segment (90,90)-(110,110) passes through the bomb
centre, so the pass-1 swept test confirms. -/
theorem pass1Hit_bombTest : pass1Hit floatOpsZero 90 90 110 110 bombTest = true := by
  norm_num [pass1Hit, bombTest, lineCircleIntersect, FRUIT_SIZE, floatOpsZero]

/-- First bomb of the failing input: sliced, health 1 → 0, GameOver,
first `addScore` emission. -/
theorem pass1Step_bomb1 :
    pass1Step floatOpsZero 90 90 110 110 (bombTest, false) fxOne = ((bombSliced, true), fxGO1) := by
  have hguard : (bombTest.active && !bombTest.sliced && !(false : Bool) &&
      pass1Hit floatOpsZero 90 90 110 110 bombTest) = true := by
    rw [pass1Hit_bombTest]; rfl
  simp only [pass1Step, hguard]
  norm_num [applyHit, drawR, fxOne, hitEffects, bombSliced, fxGO1, bombTest]

/-- Second bomb of the failing input: sliced again, health 0 → -1
clamped to 0, GameOver again, second `addScore` emission. -/
theorem pass1Step_bomb2 :
    pass1Step floatOpsZero 90 90 110 110 (bombTest, false) fxGO1 = ((bombSliced, true), fxGO2) := by
  have hguard : (bombTest.active && !bombTest.sliced && !(false : Bool) &&
      pass1Hit floatOpsZero 90 90 110 110 bombTest) = true := by
    rw [pass1Hit_bombTest]; rfl
  simp only [pass1Step, hguard]
  norm_num [applyHit, drawR, fxGO1, hitEffects, bombSliced, fxGO2, bombTest]

/-- `mapAccuml` is the identity on lists of elements whose steps no-op. -/
theorem mapAccuml_id_of {α σ : Type} {f : α → σ → α × σ} (P : α → Prop)
    (hf : ∀ a s, P a → f a s = (a, s)) :
    ∀ (l : List α) (s : σ), (∀ a ∈ l, P a) → mapAccuml f l s = (l, s) := by
  intro l
  induction l with
  | nil => intro s _; rfl
  | cons a as ih =>
    intro s hl
    have ha := hf a s (hl a (by simp))
    simp only [mapAccuml, ha]
    rw [ih s (fun b hb => hl b (by simp [hb]))]

/-- A slot that is inactive or already marked this event. -/
def idleSlot (oc : GameObject × Bool) : Prop := oc.1.active = false ∨ oc.2 = true

/-- Pass-1 steps no-op on idle slots. -/
theorem pass1Step_idle (F : FloatOps) (pmx pmy mx my : ℤ) (oc : GameObject × Bool) (fx : Fx)
    (h : idleSlot oc) : pass1Step F pmx pmy mx my oc fx = (oc, fx) := by
  simp only [pass1Step]
  rcases h with h | h <;> simp [h]

/-- Pass-2 steps no-op on idle slots. -/
theorem pass2Step_idle (F : FloatOps) (pmx pmy mx my : ℤ) (t : ℕ) (oc : GameObject × Bool)
    (fx : Fx) (h : idleSlot oc) : pass2Step F pmx pmy mx my t oc fx = (oc, fx) := by
  simp only [pass2Step]
  rcases h with h | h <;> simp [h]

/-- A whole pass-2 round is the identity on an idle slot list. -/
theorem pass2Round_idle (F : FloatOps) (pmx pmy mx my : ℤ) (t : ℕ)
    (p : List (GameObject × Bool) × Fx) (h : ∀ a ∈ p.1, idleSlot a) :
    pass2Round F pmx pmy mx my t p = p := by
  unfold pass2Round
  rw [mapAccuml_id_of idleSlot (fun a s ha => pass2Step_idle F pmx pmy mx my t a s ha) p.1 p.2 h]

/-- All 13 pass-2 rounds are the identity on an idle slot list. -/
theorem rounds_idle (F : FloatOps) (pmx pmy mx my : ℤ) :
    ∀ (ts : List ℕ) (p : List (GameObject × Bool) × Fx), (∀ a ∈ p.1, idleSlot a) →
      ts.foldl (fun p t => pass2Round F pmx pmy mx my t p) p = p := by
  intro ts
  induction ts with
  | nil => intro p _; rfl
  | cons t ts ih =>
    intro p hp
    have h1 := pass2Round_idle F pmx pmy mx my t p hp
    simp only [List.foldl, h1]
    exact ih p hp

/-- Unfolding equation of `mapAccuml` on a cons cell. -/
theorem mapAccuml_cons {α σ : Type} (f : α → σ → α × σ) (a : α) (l : List α) (s : σ) :
    mapAccuml f (a :: l) s =
      ((f a s).1 :: (mapAccuml f l (f a s).2).1, (mapAccuml f l (f a s).2).2) := rfl

/-- Resolver evaluation on the failing input: both bombs are sliced by
pass 1, producing two emissions; everything is idle for pass 2. -/
theorem resolveSlice_C1 :
    resolveSlice floatOpsZero 90 90 110 110 (poolC1.map (fun o => (o, false)))
      { score := 0, health := 1, game_state := GState.Playing, emitted := [], rng := [] } =
      ((bombSliced, true) :: (bombSliced, true) :: List.replicate 201 (inactiveTest, false),
        fxGO2) := by
  have hstart : poolC1.map (fun o => (o, false)) =
      (bombTest, false) :: (bombTest, false) :: List.replicate 201 (inactiveTest, false) := by
    simp only [poolC1, List.map_cons, List.map_replicate]
  have hfx : (⟨0, 1, GState.Playing, [], []⟩ : Fx) = fxOne := rfl
  unfold resolveSlice
  rw [hstart, hfx]
  have htail : mapAccuml (pass1Step floatOpsZero 90 90 110 110)
      (List.replicate 201 (inactiveTest, false)) fxGO2 =
      (List.replicate 201 (inactiveTest, false), fxGO2) := by
    refine mapAccuml_id_of idleSlot
      (fun a s ha => pass1Step_idle floatOpsZero 90 90 110 110 a s ha) _ _ ?_
    intro a ha
    rw [List.eq_of_mem_replicate ha]
    exact Or.inl rfl
  have hpass1 : mapAccuml (pass1Step floatOpsZero 90 90 110 110)
      ((bombTest, false) :: (bombTest, false) :: List.replicate 201 (inactiveTest, false)) fxOne =
      ((bombSliced, true) :: (bombSliced, true) :: List.replicate 201 (inactiveTest, false),
        fxGO2) := by
    rw [mapAccuml_cons, pass1Step_bomb1]
    rw [mapAccuml_cons, pass1Step_bomb2]
    simp only [htail]
  rw [hpass1]
  refine rounds_idle floatOpsZero 90 90 110 110 _ _ ?_
  intro a ha
  rcases List.mem_cons.mp ha with h | ha2
  · rw [h]; exact Or.inr rfl
  · rcases List.mem_cons.mp ha2 with h | h
    · rw [h]; exact Or.inr rfl
    · rw [List.eq_of_mem_replicate h]
      exact Or.inl rfl

/-- Claim C1 is violated by the code (code bug): on the failing input —
health 1, two active unsliced bombs on the path of one pointer-motion
event from (90,90) to (110,110) — the session performs the
Playing → GameOver transition but emits TWO leaderboard records
(`addScore` is called twice with the final score 0), because the
per-object loop never re-checks `game_state` after the first bomb and
re-clamped health re-enters the `health <= 0` branch. -/
theorem double_addScore_at_failing_input :
    (handleMouseMotion floatOpsZero 110 110 [] sessionC1).emitted = [0, 0] ∧
      (handleMouseMotion floatOpsZero 110 110 [] sessionC1).game_state = GState.GameOver ∧
      (handleMouseMotion floatOpsZero 110 110 [] sessionC1).health = 0 := by
  have hstate : sessionC1.game_state = GState.Playing := rfl
  have hcond : ((110 : ℤ) - sessionC1.mouse_x) * ((110 : ℤ) - sessionC1.mouse_x) +
      ((110 : ℤ) - sessionC1.mouse_y) * ((110 : ℤ) - sessionC1.mouse_y) > 25 := by
    norm_num [sessionC1]
  unfold handleMouseMotion
  rw [if_pos hstate, if_pos hcond]
  have hargs : sessionC1.gameObjects.map (fun o => (o, false)) =
      poolC1.map (fun o => (o, false)) := rfl
  have hfx : (⟨sessionC1.score, sessionC1.health, sessionC1.game_state, sessionC1.emitted, []⟩ : Fx) = (⟨0, 1, GState.Playing, [], []⟩ : Fx) := rfl
  have hmx : sessionC1.mouse_x = 90 := rfl
  have hmy : sessionC1.mouse_y = 90 := rfl
  rw [hargs, hfx, hmx, hmy, resolveSlice_C1]
  exact ⟨rfl, rfl, rfl⟩

/-! ## Spawn scheduler (`spawnObjects`, game.c lines 993-1204) -/

/-- Number of active slots. -/
def countActive (l : List GameObject) : ℕ := l.countP (fun o => o.active)

/-- The scheduler's own state: the shared pool plus its local cooldown,
mode timer, spawn mode and last-spawn-time variables. -/
structure SpawnSt where
  pool : List GameObject
  cooldown : ℤ
  timer : ℤ
  mode : ℕ
  lastSpawn : ℤ

/-- Zero a fragment's countdown, as the spawn helpers do (the other
fragment fields of the previous occupant are left stale). -/
def pieceTimerZero (p : SlicePiece) : SlicePiece := { p with timeLeft := 0 }

/-- The `spawnFruit` helper (game.c lines 1207-1238): drop from the top
at a random x with randomized velocities, rotation speed and kind
(1-in-5 bomb draw, else a uniform fruit kind); rand() draws are
consumed in source order. -/
def spawnFruitR (old : GameObject) (rng : List ℕ) : GameObject × List ℕ :=
  let d1 := drawR rng
  let d2 := drawR d1.2
  let d3 := drawR d2.2
  let d4 := drawR d3.2
  let d5 := drawR d4.2
  let d6 := drawR d5.2
  let rot0 : ℚ := (1/20 + ((d4.1 : ℚ) / 2147483647) * (1/10)) * (3/2)
  let rot : ℚ := if d5.1 % 2 ≠ 0 then -rot0 else rot0
  let tyr : ObjectType × List ℕ :=
    if d6.1 % 5 = 0 then (ObjectType.BOMB, d6.2)
    else
      let d7 := drawR d6.2
      (match d7.1 % 3 with
       | 0 => ObjectType.APPLE
       | 1 => ObjectType.BANANA
       | _ => ObjectType.ORANGE, d7.2)
  ({ old with
      active := true
      x := ((d1.1 % 736 : ℕ) : ℚ)
      y := 0
      vx := (-3 + ((d2.1 % 60 : ℕ) : ℚ) / 10) * (3/2)
      vy := (2 + ((d3.1 % 30 : ℕ) : ℚ) / 10) * (3/2)
      sliced := false
      rotation := 0
      rotSpeed := rot
      type := tyr.1
      pieces := (pieceTimerZero old.pieces.1, pieceTimerZero old.pieces.2) }, tyr.2)

/-- The `spawnFruitAt` helper (game.c lines 1241-1272): explicit
position/velocity (velocities scaled by 1.5), randomized rotation speed
and kind with the halved 1-in-10 formation bomb draw. -/
def spawnFruitAtR (old : GameObject) (x y vx vy : ℚ) (rng : List ℕ) : GameObject × List ℕ :=
  let d1 := drawR rng
  let d2 := drawR d1.2
  let d3 := drawR d2.2
  let rot0 : ℚ := (1/20 + ((d1.1 : ℚ) / 2147483647) * (1/10)) * (3/2)
  let rot : ℚ := if d2.1 % 2 ≠ 0 then -rot0 else rot0
  let tyr : ObjectType × List ℕ :=
    if d3.1 % 10 = 0 then (ObjectType.BOMB, d3.2)
    else
      let d4 := drawR d3.2
      (match d4.1 % 3 with
       | 0 => ObjectType.APPLE
       | 1 => ObjectType.BANANA
       | _ => ObjectType.ORANGE, d4.2)
  ({ old with
      active := true
      x := x
      y := y
      vx := vx * (3/2)
      vy := vy * (3/2)
      sliced := false
      rotation := 0
      rotSpeed := rot
      type := tyr.1
      pieces := (pieceTimerZero old.pieces.1, pieceTimerZero old.pieces.2) }, tyr.2)

/-- Mode-0 spawning loop (game.c lines 1071-1085): the first inactive
slot that passes the emergency override or the 1-in-15 draw (the
short-circuit skips the draw under emergency) is spawned and the loop
breaks; the third component reports whether something spawned. -/
def mode0Go (em : Bool) : List GameObject → List ℕ → List GameObject × List ℕ × Bool
  | [], rng => ([], rng, false)
  | o :: os, rng =>
    if o.active then
      let r := mode0Go em os rng
      (o :: r.1, r.2)
    else
      if em then
        let sp := spawnFruitR o rng
        (sp.1 :: os, sp.2, true)
      else
        let d := drawR rng
        if d.1 % 15 = 0 then
          let sp := spawnFruitR o d.2
          (sp.1 :: os, sp.2, true)
        else
          let r := mode0Go em os d.2
          (o :: r.1, r.2)

/-- Cluster-spawn loop (game.c lines 1097-1109): fill inactive slots
until the cluster budget is exhausted; each spawn draws jitter for
position and velocity (C leaves the order of the rand() calls in the
argument list unspecified; left-to-right is fixed here). -/
def clusterGo (bx bvx bvy : ℚ) : List GameObject → ℕ → List ℕ → List GameObject × List ℕ
  | [], _, rng => ([], rng)
  | l, 0, rng => (l, rng)
  | o :: os, b + 1, rng =>
    if o.active then
      let r := clusterGo bx bvx bvy os (b + 1) rng
      (o :: r.1, r.2)
    else
      let dA := drawR rng
      let dB := drawR dA.2
      let dC := drawR dB.2
      let dD := drawR dC.2
      let sp := spawnFruitAtR o (bx + (((dA.1 % 120 : ℕ) : ℚ) - 60)) (-((dB.1 % 20 : ℕ) : ℚ))
        (bvx + (((dC.1 % 20 : ℕ) : ℚ) - 10) / 10) (bvy + ((dD.1 % 20 : ℕ) : ℚ) / 10) dD.2
      let r := clusterGo bx bvx bvy os b sp.2
      (sp.1 :: r.1, r.2)

/-- Line-formation loop (game.c lines 1127-1139); `spawned` counts the
spawns so far and fixes each spawn's x offset. -/
def lineGo (startx spacing ypos svx svy : ℚ) :
    List GameObject → ℕ → ℕ → List ℕ → List GameObject × List ℕ
  | [], _, _, rng => ([], rng)
  | l, 0, _, rng => (l, rng)
  | o :: os, b + 1, spawned, rng =>
    if o.active then
      let r := lineGo startx spacing ypos svx svy os (b + 1) spawned rng
      (o :: r.1, r.2)
    else
      let d := drawR rng
      let sp := spawnFruitAtR o (startx + spacing * (spawned : ℚ))
        (ypos + (((d.1 % 20 : ℕ) : ℚ) - 10)) svx svy d.2
      let r := lineGo startx spacing ypos svx svy os b (spawned + 1) sp.2
      (sp.1 :: r.1, r.2)

/-- Arc-formation loop (game.c lines 1159-1172). -/
def arcGo (F : FloatOps) (astart astep aradius acx svy : ℚ) :
    List GameObject → ℕ → ℕ → List ℕ → List GameObject × List ℕ
  | [], _, _, rng => ([], rng)
  | l, 0, _, rng => (l, rng)
  | o :: os, b + 1, spawned, rng =>
    if o.active then
      let r := arcGo F astart astep aradius acx svy os (b + 1) spawned rng
      (o :: r.1, r.2)
    else
      let angle := astart + astep * (spawned : ℚ)
      let sp := spawnFruitAtR o (acx + F.cosQ angle * aradius) (-30) (F.sinQ angle * 2) svy rng
      let r := arcGo F astart astep aradius acx svy os b (spawned + 1) sp.2
      (sp.1 :: r.1, r.2)

/-- Emergency fallback (game.c lines 1180-1192): unconditionally spawn
into the first inactive slot. -/
def fallbackGo : List GameObject → List ℕ → List GameObject × List ℕ × Bool
  | [], rng => ([], rng, false)
  | o :: os, rng =>
    if o.active then
      let r := fallbackGo os rng
      (o :: r.1, r.2)
    else
      let sp := spawnFruitR o rng
      (sp.1 :: os, sp.2, true)

/-- Result of the mode dispatch: updated pool and stream, whether
anything spawned, and the branch's cooldown / last-spawn updates. -/
structure BranchOut where
  pool : List GameObject
  rng : List ℕ
  sp : Bool
  cd : ℤ
  lastSpawn : ℤ

/-- The mode dispatch of one scheduler iteration (game.c lines
1066-1177), entered once the cooldown/emergency gate and the pool-limit
gate have passed: regular spawning, cluster (3-5), line (4-6) or arc
(5-7) formations, each with its probability draw (bypassed under
emergency), cooldown constant and last-spawn update. -/
def runBranch (F : FloatOps) (em : Bool) (mode : ℕ) (ac : ℕ) (ct ls cd : ℤ)
    (pool : List GameObject) (rng : List ℕ) : BranchOut :=
  if mode = 0 then
    let r := mode0Go em pool rng
    if r.2.2 then ⟨r.1, r.2.1, true, 2, ct⟩ else ⟨r.1, r.2.1, false, cd, ls⟩
  else if mode = 1 ∧ ac < MAX_FRUITS - 5 then
    let e := if em then (true, rng) else
      let d := drawR rng
      (decide (d.1 % 30 = 0), d.2)
    if e.1 then
      let d1 := drawR e.2
      let d2 := drawR d1.2
      let d3 := drawR d2.2
      let d4 := drawR d3.2
      let r := clusterGo (100 + ((d2.1 % 600 : ℕ) : ℚ))
        (-3 + ((d3.1 % 60 : ℕ) : ℚ) / 10) (2 + ((d4.1 % 30 : ℕ) : ℚ) / 10)
        pool (3 + d1.1 % 3) d4.2
      ⟨r.1, r.2, true, 25, ct⟩
    else ⟨pool, e.2, false, cd, ls⟩
  else if mode = 2 then
    let e := if em then (true, rng) else
      let d := drawR rng
      (decide (d.1 % 35 = 0), d.2)
    if e.1 then
      let d1 := drawR e.2
      let d2 := drawR d1.2
      let d3 := drawR d2.2
      let d4 := drawR d3.2
      let startx : ℤ := (800 - (4 + (d1.1 % 3 : ℕ) : ℤ) * 74) / 2 + (d2.1 % 100 : ℕ) - 50
      let r := lineGo (startx : ℚ) 74 (-30)
        (-1 + ((d3.1 % 20 : ℕ) : ℚ) / 10) (2 + ((d4.1 % 20 : ℕ) : ℚ) / 10)
        pool (4 + d1.1 % 3) 0 d4.2
      ⟨r.1, r.2, true, 30, ct⟩
    else ⟨pool, e.2, false, cd, ls⟩
  else if mode = 3 then
    let e := if em then (true, rng) else
      let d := drawR rng
      (decide (d.1 % 60 = 0), d.2)
    if e.1 then
      let d1 := drawR e.2
      let d2 := drawR d1.2
      let d3 := drawR d2.2
      let d4 := drawR d3.2
      let d5 := drawR d4.2
      let d6 := drawR d5.2
      let astart : ℚ := -(F.piQ / 4) - ((d4.1 % 20 : ℕ) : ℚ) / 100
      let aend : ℚ := F.piQ / 4 + ((d5.1 % 20 : ℕ) : ℚ) / 100
      let r := arcGo F astart ((aend - astart) / (((5 + d1.1 % 3 : ℕ) : ℚ) - 1))
        (100 + ((d2.1 % 50 : ℕ) : ℚ)) (400 + ((d3.1 % 200 : ℕ) : ℚ) - 100)
        (3 + ((d6.1 % 20 : ℕ) : ℚ) / 10)
        pool (5 + d1.1 % 3) 0 d6.2
      ⟨r.1, r.2, true, 60, ct⟩
    else ⟨pool, e.2, false, cd, ls⟩
  else ⟨pool, rng, false, cd, ls⟩

/-- Result of the timer/mode bookkeeping. -/
structure RollOut where
  timer : ℤ
  mode : ℕ
  cd : ℤ
  lastSpawn : ℤ
  rng : List ℕ

/-- Timer and mode bookkeeping at the top of one scheduler iteration
(game.c lines 1016-1045): the timer increments and above 200 resets and
re-rolls the mode; a mode change with fewer than 3 active fruits forces
both the cooldown and the last-spawn time to 0. -/
def rollMode (st : SpawnSt) (cd0 : ℤ) (rng : List ℕ) : RollOut :=
  if st.timer + 1 > 200 then
    let d := drawR rng
    if st.mode ≠ d.1 % 4 ∧ countActive st.pool < 3 then ⟨0, d.1 % 4, 0, 0, d.2⟩
    else ⟨0, d.1 % 4, cd0, st.lastSpawn, d.2⟩
  else ⟨st.timer + 1, st.mode, cd0, st.lastSpawn, rng⟩

/-- One iteration of the `spawnObjects` scheduler loop body (game.c
lines 1002-1201): cooldown decrement, timer/mode bookkeeping, the
cooldown-or-emergency gate, the pool-limit gate, the mode dispatch, and
the guaranteed emergency fallback when the pool is empty and nothing
spawned.  `current_time` is the seconds clock read at the top. -/
def spawnObjectsTick (F : FloatOps) (current_time : ℤ) (st : SpawnSt) (rng : List ℕ) :
    SpawnSt × List ℕ :=
  let cd0 := if st.cooldown > 0 then st.cooldown - 1 else st.cooldown
  let ro := rollMode st cd0 rng
  let ac := countActive st.pool
  let em : Bool := decide (ac = 0) || decide (current_time - ro.lastSpawn > 2)
  if ro.cd ≤ 0 ∨ em = true then
    if ac < MAX_FRUITS - 3 then
      let bo := runBranch F em ro.mode ac current_time ro.lastSpawn ro.cd st.pool ro.rng
      if em && !bo.sp && decide (ac = 0) then
        let fb := fallbackGo bo.pool bo.rng
        ({ pool := fb.1, cooldown := bo.cd, timer := ro.timer, mode := ro.mode,
           lastSpawn := if fb.2.2 then current_time else bo.lastSpawn }, fb.2.1)
      else
        ({ pool := bo.pool, cooldown := bo.cd, timer := ro.timer, mode := ro.mode,
           lastSpawn := bo.lastSpawn }, bo.rng)
    else
      ({ pool := st.pool, cooldown := ro.cd, timer := ro.timer, mode := ro.mode,
         lastSpawn := ro.lastSpawn }, ro.rng)
  else
    ({ pool := st.pool, cooldown := ro.cd, timer := ro.timer, mode := ro.mode,
       lastSpawn := ro.lastSpawn }, ro.rng)

/-! ## Claim C7: no-starvation of the spawn scheduler -/

/-- A default spawn always produces an active object. -/
theorem spawnFruitR_active (o : GameObject) (rng : List ℕ) :
    ((spawnFruitR o rng).1).active = true := rfl

/-- An explicit-position spawn always produces an active object. -/
theorem spawnFruitAtR_active (o : GameObject) (x y vx vy : ℚ) (rng : List ℕ) :
    ((spawnFruitAtR o x y vx vy rng).1).active = true := rfl

/-- A list headed by an active slot has at least one active slot. -/
theorem countActive_cons_ge_one (o : GameObject) (l : List GameObject) (ha : o.active = true) :
    1 ≤ countActive (o :: l) := by
  simp [countActive, List.countP_cons, ha]

/-- Outcomes of the mode-0 loop under emergency: a spawn leaves an
active slot, and a no-spawn leaves the pool untouched. -/
theorem mode0Go_count : ∀ (l : List GameObject) (rng : List ℕ),
    ((mode0Go true l rng).2.2 = true → 1 ≤ countActive (mode0Go true l rng).1) ∧
      ((mode0Go true l rng).2.2 = false → (mode0Go true l rng).1 = l) := by
  intro l
  induction l with
  | nil =>
    intro rng
    exact ⟨fun h => by simp [mode0Go] at h, fun _ => rfl⟩
  | cons o os ih =>
    intro rng
    by_cases ha : o.active = true
    · simp only [mode0Go, ha, if_true]
      refine ⟨fun _ => countActive_cons_ge_one o _ ha, fun hsp => ?_⟩
      rw [(ih rng).2 hsp]
    · simp only [mode0Go, ha, if_false, if_true]
      exact ⟨fun _ => countActive_cons_ge_one _ _ (spawnFruitR_active o rng),
        fun h => by simp at h⟩

/-- The cluster loop with a positive budget and a free slot leaves an
active slot. -/
theorem clusterGo_count (bx bvx bvy : ℚ) (l : List GameObject) (b : ℕ) (rng : List ℕ)
    (hb : 1 ≤ b) (hw : ∃ o ∈ l, o.active = false) :
    1 ≤ countActive (clusterGo bx bvx bvy l b rng).1 := by
  obtain ⟨w, hwmem, hwa⟩ := hw
  cases l with
  | nil => cases hwmem
  | cons o os =>
    obtain ⟨b', rfl⟩ : ∃ b', b = b' + 1 := ⟨b - 1, by omega⟩
    by_cases ha : o.active = true
    · simp only [clusterGo, ha, if_true]
      exact countActive_cons_ge_one o _ ha
    · simp only [clusterGo, ha, if_false]
      exact countActive_cons_ge_one _ _ (spawnFruitAtR_active _ _ _ _ _ _)

/-- The line loop with a positive budget and a free slot leaves an
active slot. -/
theorem lineGo_count (sx sp yp svx svy : ℚ) (l : List GameObject) (b k : ℕ) (rng : List ℕ)
    (hb : 1 ≤ b) (hw : ∃ o ∈ l, o.active = false) :
    1 ≤ countActive (lineGo sx sp yp svx svy l b k rng).1 := by
  obtain ⟨w, hwmem, hwa⟩ := hw
  cases l with
  | nil => cases hwmem
  | cons o os =>
    obtain ⟨b', rfl⟩ : ∃ b', b = b' + 1 := ⟨b - 1, by omega⟩
    by_cases ha : o.active = true
    · simp only [lineGo, ha, if_true]
      exact countActive_cons_ge_one o _ ha
    · simp only [lineGo, ha, if_false]
      exact countActive_cons_ge_one _ _ (spawnFruitAtR_active _ _ _ _ _ _)

/-- The arc loop with a positive budget and a free slot leaves an
active slot. -/
theorem arcGo_count (F : FloatOps) (a1 a2 a3 a4 a5 : ℚ) (l : List GameObject) (b k : ℕ)
    (rng : List ℕ) (hb : 1 ≤ b) (hw : ∃ o ∈ l, o.active = false) :
    1 ≤ countActive (arcGo F a1 a2 a3 a4 a5 l b k rng).1 := by
  obtain ⟨w, hwmem, hwa⟩ := hw
  cases l with
  | nil => cases hwmem
  | cons o os =>
    obtain ⟨b', rfl⟩ : ∃ b', b = b' + 1 := ⟨b - 1, by omega⟩
    by_cases ha : o.active = true
    · simp only [arcGo, ha, if_true]
      exact countActive_cons_ge_one o _ ha
    · simp only [arcGo, ha, if_false]
      exact countActive_cons_ge_one _ _ (spawnFruitAtR_active _ _ _ _ _ _)

/-- The emergency fallback with a free slot leaves an active slot. -/
theorem fallbackGo_count : ∀ (l : List GameObject) (rng : List ℕ),
    (∃ o ∈ l, o.active = false) → 1 ≤ countActive (fallbackGo l rng).1 := by
  intro l
  induction l with
  | nil =>
    intro rng h
    obtain ⟨w, hm, _⟩ := h
    cases hm
  | cons o os ih =>
    intro rng h
    by_cases ha : o.active = true
    · simp only [fallbackGo, ha, if_true]
      exact countActive_cons_ge_one o _ ha
    · simp only [fallbackGo, ha, if_false]
      exact countActive_cons_ge_one _ _ (spawnFruitR_active o rng)

/-- Under emergency, every dispatch outcome either spawned (leaving an
active slot) or left the pool untouched. -/
theorem runBranch_count (F : FloatOps) (mode : ℕ) (ac : ℕ) (ct ls cd : ℤ)
    (pool : List GameObject) (rng : List ℕ) (hw : ∃ o ∈ pool, o.active = false) :
    ((runBranch F true mode ac ct ls cd pool rng).sp = true →
        1 ≤ countActive (runBranch F true mode ac ct ls cd pool rng).pool) ∧
      ((runBranch F true mode ac ct ls cd pool rng).sp = false →
        (runBranch F true mode ac ct ls cd pool rng).pool = pool) := by
  by_cases h0 : mode = 0
  · simp only [runBranch, h0, if_true]
    by_cases hsp : (mode0Go true pool rng).2.2 = true
    · simp only [hsp, if_true]
      exact ⟨fun _ => (mode0Go_count pool rng).1 hsp, fun h => by simp at h⟩
    · have hsp' : (mode0Go true pool rng).2.2 = false := by
        cases hb : (mode0Go true pool rng).2.2
        · rfl
        · exact absurd hb hsp
      simp only [hsp', Bool.false_eq_true, if_false]
      exact ⟨fun h => by simp at h, fun _ => (mode0Go_count pool rng).2 hsp'⟩
  · by_cases h1 : mode = 1 ∧ ac < MAX_FRUITS - 5
    · simp only [runBranch, h0, if_false, h1, if_true]
      exact ⟨fun _ => clusterGo_count _ _ _ pool _ _ (by omega) hw, fun h => by simp at h⟩
    · by_cases h2 : mode = 2
      · simp only [runBranch, h0, if_false, h1, h2, if_true]
        exact ⟨fun _ => lineGo_count _ _ _ _ _ pool _ _ _ (by omega) hw, fun h => by simp at h⟩
      · by_cases h3 : mode = 3
        · simp only [runBranch, h0, if_false, h1, h2, h3, if_true]
          exact ⟨fun _ => arcGo_count F _ _ _ _ _ pool _ _ _ (by omega) hw, fun h => by simp at h⟩
        · simp only [runBranch, h0, if_false, h1, h2, h3]
          exact ⟨fun h => by simp at h, fun _ => by trivial⟩

/-- Claim C7: from any scheduler state whose (nonempty) pool has no
active slot, one evaluation of the `spawnObjects` loop body leaves at
least one slot active — in every spawn mode, whatever the cooldown,
clock and random stream. -/
theorem scheduler_no_starvation (F : FloatOps) (ct : ℤ) (st : SpawnSt) (rng : List ℕ)
    (h0 : countActive st.pool = 0) (hne : st.pool ≠ []) :
    1 ≤ countActive (spawnObjectsTick F ct st rng).1.pool := by
  have hall : ∀ o ∈ st.pool, o.active = false := by
    intro o ho
    have h := List.countP_eq_zero.mp h0 o ho
    simpa using h
  have hw : ∃ o ∈ st.pool, o.active = false := by
    obtain ⟨a, l, hp⟩ : ∃ a l, st.pool = a :: l := by
      cases hq : st.pool with
      | nil => exact absurd hq hne
      | cons a l => exact ⟨a, l, rfl⟩
    have ham : a ∈ st.pool := by
      rw [hp]
      exact List.mem_cons_self a l
    exact ⟨a, ham, hall a ham⟩
  simp only [spawnObjectsTick, h0]
  simp only [decide_eq_true_eq, decide_True, Bool.true_or, Bool.true_and]
  rw [if_pos (Or.inr trivial)]
  rw [if_pos (by norm_num [MAX_FRUITS])]
  set cd0 := (if st.cooldown > 0 then st.cooldown - 1 else st.cooldown) with hcd0
  set ro := rollMode st cd0 rng with hro
  set bo := runBranch F true ro.mode 0 ct ro.lastSpawn ro.cd st.pool ro.rng with hbo
  by_cases hsp : bo.sp = true
  · simp only [hsp, Bool.not_true, Bool.false_and, Bool.and_false, Bool.false_eq_true, if_false]
    exact hbo ▸ (runBranch_count F ro.mode 0 ct ro.lastSpawn ro.cd st.pool ro.rng hw).1
      (hbo ▸ hsp)
  · have hsp' := Bool.not_eq_true bo.sp |>.mp hsp
    simp only [hsp', Bool.not_false, Bool.and_true, Bool.true_and, if_true]
    have hpool := (runBranch_count F ro.mode 0 ct ro.lastSpawn ro.cd st.pool ro.rng hw).2
      (hbo ▸ hsp')
    apply fallbackGo_count
    rw [hbo, hpool]
    exact hw

/-- Scheduler state with a completely empty 203-slot pool, nonzero
cooldown, and cluster mode, for the witness. -/
def spawnStEmpty : SpawnSt :=
  { pool := List.replicate 203 inactiveTest, cooldown := 5, timer := 0, mode := 1,
    lastSpawn := 0 }

/-- Witness for `scheduler_no_starvation` at concrete inputs. -/
theorem scheduler_no_starvation_witness :
    countActive spawnStEmpty.pool = 0 ∧ spawnStEmpty.pool ≠ [] ∧
      1 ≤ countActive (spawnObjectsTick floatOpsZero 0 spawnStEmpty []).1.pool :=
  ⟨by decide, by decide,
    scheduler_no_starvation floatOpsZero 0 spawnStEmpty [] (by decide) (by decide)⟩

/-! ## Leaderboard (`addScore`, game.c lines 2659-2700) -/

/-- Leaderboard record (`struct ScoreRecord`); the date is the content
of the 20-byte char array. -/
structure ScoreRecord where
  score : ℤ
  date : List Char
deriving DecidableEq, Repr

/-- Score of the last (lowest) record, `leaderboard[num_scores - 1].score`;
only read when the board is full, defaulting to 0 on an empty board. -/
def lastScore (b : List ScoreRecord) : ℤ := ((b.getLast?).map ScoreRecord.score).getD 0

/-- The insertion scan of `addScore` (game.c lines 2671-2675):
`pos` counts the leading records whose score is at least the new one. -/
def insertPos (b : List ScoreRecord) (new_score : ℤ) : ℕ :=
  (b.takeWhile (fun r => decide (new_score ≤ r.score))).length

/-- The `addScore` function (game.c lines 2659-2700) as a pure function
of the board and the formatted date string.  The source mutates the
array in place: the qualification test admits the score when the board
is not full or the score beats the last record; `num_scores` grows only
below MAX_SCORES; records from the insertion position shift down one
slot (the overflowing record is dropped); the new record lands at the
insertion position.  Expressed on lists: the first `pos` records, the
new record, then the old records from `pos` cut to the new length. -/
def addScore (b : List ScoreRecord) (new_score : ℤ) (date : List Char) : List ScoreRecord :=
  if b.length < MAX_SCORES ∨ new_score > lastScore b then
    b.take (insertPos b new_score) ++ ⟨new_score, date⟩ ::
      (b.drop (insertPos b new_score)).take
        (min (b.length + 1) MAX_SCORES - insertPos b new_score - 1)
  else b

/-- Scores are in descending order (ties allowed). -/
abbrev sortedBoard (b : List ScoreRecord) : Prop :=
  List.Pairwise (fun r s => s.score ≤ r.score) b

/-- Taking as many elements as the `takeWhile` prefix is the
`takeWhile` prefix. -/
theorem take_length_takeWhile {α : Type} (p : α → Bool) :
    ∀ l : List α, l.take (l.takeWhile p).length = l.takeWhile p := by
  intro l
  induction l with
  | nil => rfl
  | cons a l ih =>
    by_cases hp : p a = true
    · simp [List.takeWhile_cons, hp, ih]
    · simp [List.takeWhile_cons, hp]

/-- The element just past the `takeWhile` prefix fails the predicate. -/
theorem get_length_takeWhile_false {α : Type} (p : α → Bool) :
    ∀ (l : List α) (n : ℕ) (hn : n = (l.takeWhile p).length) (h : n < l.length),
      p (l.get ⟨n, h⟩) = false := by
  intro l
  induction l with
  | nil => intro n hn h; simp at h
  | cons a l ih =>
    intro n hn h
    cases n with
    | zero =>
      by_cases hp : p a = true
      · exfalso
        rw [List.takeWhile_cons, if_pos hp] at hn
        simp at hn
      · simpa using hp
    | succ m =>
      by_cases hp : p a = true
      · have hm : m = (l.takeWhile p).length := by
          rw [List.takeWhile_cons, if_pos hp] at hn
          simpa using hn
        have h' : m < l.length := by
          simpa using Nat.lt_of_succ_lt_succ (by simpa using h)
        exact ih m hm h'
      · exfalso
        rw [List.takeWhile_cons, if_neg hp] at hn
        simp at hn

/-- Every record the resolver keeps ahead of the insertion point has a
score at least the new one. -/
theorem take_insertPos_ge (b : List ScoreRecord) (ns : ℤ) :
    ∀ r ∈ b.take (insertPos b ns), ns ≤ r.score := by
  intro r hr
  rw [insertPos, take_length_takeWhile] at hr
  have := List.mem_takeWhile_imp hr
  simpa using this

/-- Past the insertion point (if in range) the score is strictly
below the new one. -/
theorem get_insertPos_lt (b : List ScoreRecord) (ns : ℤ) (hk : insertPos b ns < b.length) :
    (b.get ⟨insertPos b ns, hk⟩).score < ns := by
  have := get_length_takeWhile_false (fun r : ScoreRecord => decide (ns ≤ r.score)) b
    (insertPos b ns) rfl hk
  simp only [decide_eq_false_iff_not, not_le] at this
  exact this

/-- In a sorted board every record from the insertion point on scores
strictly below the new score. -/
theorem drop_insertPos_lt (ns : ℤ) :
    ∀ b : List ScoreRecord, sortedBoard b → ∀ y ∈ b.drop (insertPos b ns), y.score < ns := by
  intro b
  induction b with
  | nil => intro _ y hy; simp at hy
  | cons r b' ih =>
    intro hsort y hy
    by_cases hp : (decide (ns ≤ r.score)) = true
    · have e : insertPos (r :: b') ns = insertPos b' ns + 1 := by
        simp [insertPos, List.takeWhile_cons, hp]
      rw [e, List.drop_succ_cons] at hy
      exact ih (List.Pairwise.of_cons hsort) y hy
    · have e : insertPos (r :: b') ns = 0 := by
        simp only [insertPos, List.takeWhile_cons]
        rw [if_neg hp]
        rfl
      rw [e, List.drop_zero] at hy
      have hr : r.score < ns := by
        simp only [decide_eq_true_eq] at hp
        omega
      rcases List.mem_cons.mp hy with h | h
      · rw [h]; exact hr
      · have := (List.pairwise_cons.mp hsort).1 y h
        omega

/-- Claim C10: with a sorted board of at most 10 records, `addScore`
(a) leaves a full board completely unchanged when the new score does not
beat the lowest record; (b) otherwise inserts the new record exactly
after the block of records scoring at least the new score (so a tied
score lands after earlier-inserted equals) and before all strictly
lower ones, dropping the overflow; the result is always sorted and
never exceeds 10 records. -/
theorem addScore_spec (b : List ScoreRecord) (ns : ℤ) (d : List Char)
    (hsort : sortedBoard b) (hlen : b.length ≤ MAX_SCORES) :
    ((b.length = MAX_SCORES ∧ ¬ ns > lastScore b) → addScore b ns d = b) ∧
      sortedBoard (addScore b ns d) ∧
      (addScore b ns d).length ≤ MAX_SCORES ∧
      (¬ (b.length = MAX_SCORES ∧ ¬ ns > lastScore b) →
        ∃ k, addScore b ns d =
            b.take k ++ ⟨ns, d⟩ :: (b.drop k).take (min (b.length + 1) MAX_SCORES - k - 1) ∧
          (∀ r ∈ b.take k, ns ≤ r.score) ∧
          (∀ hk : k < b.length, (b.get ⟨k, hk⟩).score < ns)) := by
  by_cases hcond : b.length < MAX_SCORES ∨ ns > lastScore b
  · -- insertion path
    have hke : insertPos b ns ≤ b.length :=
      List.Sublist.length_le (List.takeWhile_sublist _)
    have hres : addScore b ns d =
        b.take (insertPos b ns) ++ ⟨ns, d⟩ ::
          (b.drop (insertPos b ns)).take
            (min (b.length + 1) MAX_SCORES - insertPos b ns - 1) := by
      rw [addScore, if_pos hcond]
    have hk10 : b.length = MAX_SCORES → insertPos b ns < MAX_SCORES := by
      intro h10
      rcases hcond with h | h
      · omega
      · by_contra hge
        have hkeq : insertPos b ns = b.length := by omega
        have hbne : b ≠ [] := by
          intro he
          rw [he] at h10
          simp [MAX_SCORES] at h10
        have hlast : b.getLast hbne ∈ b.take (insertPos b ns) := by
          rw [hkeq, List.take_length]
          exact List.getLast_mem hbne
        have hle := take_insertPos_ge b ns _ hlast
        have : lastScore b = (b.getLast hbne).score := by
          rw [lastScore, List.getLast?_eq_getLast b hbne]
          rfl
        omega
    refine ⟨?_, ?_, ?_, ?_⟩
    · intro ⟨h10, hnot⟩
      exact absurd hcond (by push_neg; exact ⟨by omega, by omega⟩)
    · -- sortedness
      rw [hres]
      have hsplit := hsort
      rw [← List.take_append_drop (insertPos b ns) b, sortedBoard, List.pairwise_append] at hsplit
      obtain ⟨hs1, hs2, hcross⟩ := hsplit
      rw [sortedBoard, List.pairwise_append]
      refine ⟨hs1, ?_, ?_⟩
      · rw [List.pairwise_cons]
        constructor
        · intro y hy
          have hy' : y ∈ b.drop (insertPos b ns) := List.take_subset _ _ hy
          have := drop_insertPos_lt ns b hsort y hy'
          simp only []
          omega
        · exact List.Pairwise.sublist (List.take_sublist _ _) hs2
      · intro x hx y hy
        rcases List.mem_cons.mp hy with h | h
        · rw [h]
          have := take_insertPos_ge b ns x hx
          simp only []
          omega
        · exact hcross x hx y (List.take_subset _ _ h)
    · -- length bound
      rw [hres]
      have hlen' : (b.drop (insertPos b ns)).length = b.length - insertPos b ns := by
        simp
      simp only [List.length_append, List.length_cons, List.length_take, hlen']
      have := hk10
      by_cases h10 : b.length = MAX_SCORES
      · have := hk10 h10
        simp only [MAX_SCORES] at *
        omega
      · simp only [MAX_SCORES] at *
        omega
    · intro _
      exact ⟨insertPos b ns, hres, take_insertPos_ge b ns, fun hk => get_insertPos_lt b ns hk⟩
  · -- rejection path
    have hres : addScore b ns d = b := by
      rw [addScore, if_neg hcond]
    push_neg at hcond
    refine ⟨fun _ => hres, by rw [hres]; exact hsort, by rw [hres]; exact hlen, ?_⟩
    intro hcon
    exact absurd ⟨by omega, by omega⟩ hcon

/-- Witness for `addScore_spec` at concrete inputs: board
[(5,"a"), (3,"b")], new score 4. -/
theorem addScore_spec_witness :
    sortedBoard [⟨5, ['a']⟩, ⟨3, ['b']⟩] ∧
      (([⟨5, ['a']⟩, ⟨3, ['b']⟩] : List ScoreRecord).length = MAX_SCORES ∧
          ¬ (4 : ℤ) > lastScore [⟨5, ['a']⟩, ⟨3, ['b']⟩] →
            addScore [⟨5, ['a']⟩, ⟨3, ['b']⟩] 4 ['c'] = [⟨5, ['a']⟩, ⟨3, ['b']⟩]) ∧
      sortedBoard (addScore [⟨5, ['a']⟩, ⟨3, ['b']⟩] 4 ['c']) ∧
      (addScore [⟨5, ['a']⟩, ⟨3, ['b']⟩] 4 ['c']).length ≤ MAX_SCORES :=
  ⟨by decide,
    (addScore_spec [⟨5, ['a']⟩, ⟨3, ['b']⟩] 4 ['c'] (by decide) (by decide)).1,
    (addScore_spec [⟨5, ['a']⟩, ⟨3, ['b']⟩] 4 ['c'] (by decide) (by decide)).2.1,
    (addScore_spec [⟨5, ['a']⟩, ⟨3, ['b']⟩] 4 ['c'] (by decide) (by decide)).2.2.1⟩

/-! ## Claim C9: leaderboard save/load round trip.

`saveScores` (game.c lines 2640-2656) writes each record as
`fprintf(file, "%d,%s\n", score, date)`; `loadScores` (lines 2619-2637)
reads records with `fscanf(file, "%d,%19[^\n]\n", ...)` until it fails
or MAX_SCORES records are read.  The file is modelled as a list of
characters and the `fscanf` format by its C semantics: `%d` skips
whitespace then reads an optional sign and a maximal digit run, the
literal `,` must match exactly, `%19[^\n]` reads 1..19 characters other
than newline, and the trailing `\n` directive skips any whitespace. -/

/-- C `isspace` characters, as used by scanf whitespace skipping. -/
def isSpaceC (c : Char) : Bool :=
  c = ' ' || c = '\t' || c = '\n' || c = '\x0b' || c = '\x0c' || c = '\r'

/-- ASCII digit test. -/
def isDigitC (c : Char) : Bool := '0' ≤ c && c ≤ '9'

/-- Skip scanf whitespace. -/
def skipWs : List Char → List Char
  | [] => []
  | c :: cs => if isSpaceC c then skipWs cs else c :: cs

/-- Maximal digit run, accumulating the decimal value. -/
def parseDigits : ℕ → List Char → ℕ × List Char
  | acc, [] => (acc, [])
  | acc, c :: cs =>
    if isDigitC c then parseDigits (acc * 10 + (c.toNat - 48)) cs else (acc, c :: cs)

/-- The `%d` conversion: whitespace skip, optional sign, then at least
one digit; anything else is a matching failure. -/
def parseIntC (cs : List Char) : Option (ℤ × List Char) :=
  match skipWs cs with
  | [] => none
  | c :: cs' =>
    if c = '-' then
      match cs' with
      | [] => none
      | c2 :: _ =>
        if isDigitC c2 then
          some (-(((parseDigits 0 cs').1 : ℤ)), (parseDigits 0 cs').2)
        else none
    else if c = '+' then
      match cs' with
      | [] => none
      | c2 :: _ =>
        if isDigitC c2 then
          some (((parseDigits 0 cs').1 : ℤ), (parseDigits 0 cs').2)
        else none
    else if isDigitC c then
      some (((parseDigits 0 (c :: cs')).1 : ℤ), (parseDigits 0 (c :: cs')).2)
    else none

/-- Up to `k` characters before a newline (the scan set `[^\n]` with a
width limit). -/
def takeNonNl : ℕ → List Char → List Char × List Char
  | 0, cs => ([], cs)
  | _ + 1, [] => ([], [])
  | k + 1, c :: cs =>
    if c = '\n' then ([], c :: cs)
    else
      let r := takeNonNl k cs
      (c :: r.1, r.2)

/-- The `%19[^\n]` conversion: up to 19 non-newline characters, at
least one. -/
def parseDateC (cs : List Char) : Option (List Char × List Char) :=
  if (takeNonNl 19 cs).1 = [] then none
  else some ((takeNonNl 19 cs).1, (takeNonNl 19 cs).2)

/-- One `fscanf(file, "%d,%19[^\n]\n", ...)` call returning 2: the
integer, the exact comma, the date field, then the whitespace-skipping
`\n` directive. -/
def parseRecord (cs : List Char) : Option (ScoreRecord × List Char) :=
  match parseIntC cs with
  | none => none
  | some (n, cs1) =>
    match cs1 with
    | [] => none
    | c :: cs2 =>
      if c = ',' then
        match parseDateC cs2 with
        | none => none
        | some (d, cs3) => some (⟨n, d⟩, skipWs cs3)
      else none

/-- The `loadScores` read loop with its `num_scores < MAX_SCORES`
bound. -/
def loadScoresAux : ℕ → List Char → List ScoreRecord
  | 0, _ => []
  | k + 1, cs =>
    match parseRecord cs with
    | none => []
    | some (r, cs') => r :: loadScoresAux k cs'

/-- The `loadScores` function on file contents. -/
def loadScoresChars (cs : List Char) : List ScoreRecord := loadScoresAux MAX_SCORES cs

/-- Decimal digits of a natural number, most significant first (the
digits `%d` prints). -/
def natToChars (n : ℕ) : List Char :=
  if h : n < 10 then [Char.ofNat (48 + n)]
  else natToChars (n / 10) ++ [Char.ofNat (48 + n % 10)]
termination_by n
decreasing_by
  exact Nat.div_lt_self (by omega) (by omega)

/-- What `%d` prints for an int. -/
def intToChars (n : ℤ) : List Char :=
  if n < 0 then '-' :: natToChars n.natAbs else natToChars n.toNat

/-- The `saveScores` function on file contents: one `score,date\n` line
per record, in order. -/
def saveScoresChars (l : List ScoreRecord) : List Char :=
  l.foldr (fun r acc => intToChars r.score ++ ',' :: (r.date ++ '\n' :: acc)) []

/-- A digit character produced from a value below 10 passes the digit
test. -/
theorem digitChar_isDigit (m : ℕ) (hm : m < 10) : isDigitC (Char.ofNat (48 + m)) = true := by
  interval_cases m <;> decide

/-- Code point of a produced digit character. -/
theorem digitChar_toNat (m : ℕ) (hm : m < 10) : (Char.ofNat (48 + m)).toNat = 48 + m := by
  interval_cases m <;> decide

/-- Digits are not scanf whitespace. -/
theorem digit_not_space (c : Char) (hc : isDigitC c = true) : isSpaceC c = false := by
  cases hs : isSpaceC c
  · rfl
  · exfalso
    simp only [isSpaceC, Bool.or_eq_true, decide_eq_true_eq] at hs
    rcases hs with ((((h | h) | h) | h) | h) | h <;> (subst h; exact absurd hc (by decide))

/-- Digits are not the minus sign. -/
theorem digit_ne_dash (c : Char) (hc : isDigitC c = true) : c ≠ '-' := by
  intro h
  subst h
  exact absurd hc (by decide)

/-- Digits are not the plus sign. -/
theorem digit_ne_plus (c : Char) (hc : isDigitC c = true) : c ≠ '+' := by
  intro h
  subst h
  exact absurd hc (by decide)

/-- Every character `%d` prints for a natural number is a digit. -/
theorem natToChars_all_digit : ∀ n : ℕ, ∀ c ∈ natToChars n, isDigitC c = true := by
  intro n
  induction n using Nat.strong_induction_on with
  | _ n ih =>
    intro c hc
    rw [natToChars] at hc
    split at hc
    · rename_i h
      simp only [List.mem_singleton] at hc
      subst hc
      exact digitChar_isDigit n h
    · rename_i h
      rcases List.mem_append.mp hc with h1 | h1
      · exact ih (n / 10) (Nat.div_lt_self (by omega) (by omega)) c h1
      · simp only [List.mem_singleton] at h1
        subst h1
        exact digitChar_isDigit (n % 10) (Nat.mod_lt _ (by omega))

/-- `%d` always prints at least one digit. -/
theorem natToChars_ne_nil (n : ℕ) : natToChars n ≠ [] := by
  rw [natToChars]
  split
  · simp
  · simp

/-- Digit runs accumulate by folding. -/
theorem parseDigits_append_digits : ∀ (ds : List Char), (∀ c ∈ ds, isDigitC c = true) →
    ∀ (acc : ℕ) (rest : List Char),
      parseDigits acc (ds ++ rest) =
        parseDigits (ds.foldl (fun a c => a * 10 + (c.toNat - 48)) acc) rest := by
  intro ds
  induction ds with
  | nil => intro _ acc rest; rfl
  | cons c cs ih =>
    intro hall acc rest
    have hc := hall c (by simp)
    simp only [List.cons_append, parseDigits, hc, if_true, List.foldl_cons]
    exact ih (fun x hx => hall x (by simp [hx])) _ rest

/-- Folding the printed digits of `n` over an accumulator recovers
`n` below the shifted accumulator. -/
theorem natToChars_foldl (n : ℕ) : ∀ acc : ℕ,
    (natToChars n).foldl (fun a c => a * 10 + (c.toNat - 48)) acc =
      acc * 10 ^ (natToChars n).length + n := by
  induction n using Nat.strong_induction_on with
  | _ n ih =>
    intro acc
    rw [natToChars]
    split
    · rename_i h
      simp only [List.foldl_cons, List.foldl_nil, List.length_singleton, pow_one,
        digitChar_toNat n h]
      omega
    · rename_i h
      rw [List.foldl_append]
      rw [ih (n / 10) (Nat.div_lt_self (by omega) (by omega)) acc]
      simp only [List.foldl_cons, List.foldl_nil, List.length_append, List.length_singleton,
        digitChar_toNat (n % 10) (Nat.mod_lt _ (by omega))]
      have e1 : (acc * 10 ^ (natToChars (n / 10)).length + n / 10) * 10 + (48 + n % 10 - 48) =
          acc * (10 ^ (natToChars (n / 10)).length * 10) + (10 * (n / 10) + n % 10) := by
        have : 48 + n % 10 - 48 = n % 10 := by omega
        rw [this]
        ring
      rw [e1, Nat.div_add_mod n 10, pow_succ]

/-- A digit run stops at a non-digit (or the end of input). -/
theorem parseDigits_stop (acc : ℕ) (rest : List Char)
    (h : ∀ c, rest.head? = some c → isDigitC c = false) : parseDigits acc rest = (acc, rest) := by
  cases rest with
  | nil => rfl
  | cons c cs =>
    have := h c rfl
    simp [parseDigits, this]

/-- Parsing the printed digits of `n` followed by a non-digit yields
exactly `n`. -/
theorem parseDigits_natToChars (n acc : ℕ) (rest : List Char)
    (h : ∀ c, rest.head? = some c → isDigitC c = false) :
    parseDigits acc (natToChars n ++ rest) = (acc * 10 ^ (natToChars n).length + n, rest) := by
  rw [parseDigits_append_digits _ (natToChars_all_digit n) acc rest, natToChars_foldl n acc,
    parseDigits_stop _ _ h]

/-- Whitespace skipping is the identity on non-whitespace-headed
input. -/
theorem skipWs_not_space (cs : List Char) (h : ∀ c, cs.head? = some c → isSpaceC c = false) :
    skipWs cs = cs := by
  cases cs with
  | nil => rfl
  | cons c cs' => simp [skipWs, h c rfl]

/-- `%d` inverts `%d`-printing, leaving a non-digit-headed remainder
untouched. -/
theorem parseIntC_intToChars (n : ℤ) (rest : List Char)
    (hrd : ∀ c, rest.head? = some c → isDigitC c = false) :
    parseIntC (intToChars n ++ rest) = some (n, rest) := by
  by_cases hn : n < 0
  · rw [intToChars, if_pos hn]
    obtain ⟨c0, cs0, he⟩ : ∃ c0 cs0, natToChars n.natAbs = c0 :: cs0 := by
      cases hq : natToChars n.natAbs with
      | nil => exact absurd hq (natToChars_ne_nil _)
      | cons a l => exact ⟨a, l, rfl⟩
    have hc0 : isDigitC c0 = true := natToChars_all_digit n.natAbs c0 (by rw [he]; simp)
    have hskip : skipWs ('-' :: (natToChars n.natAbs ++ rest)) =
        '-' :: (natToChars n.natAbs ++ rest) :=
      skipWs_not_space _ (fun c hc => by
        simp only [List.head?] at hc
        cases hc
        decide)
    simp only [List.cons_append, parseIntC]
    rw [hskip]
    simp only [he, List.cons_append, eq_self_iff_true, if_true, hc0]
    rw [← List.cons_append, ← he, parseDigits_natToChars n.natAbs 0 rest hrd]
    dsimp only
    have habs : ((n.natAbs : ℤ)) = -n := by omega
    rw [Nat.zero_mul, Nat.zero_add, habs, neg_neg]
  · rw [intToChars, if_neg hn]
    obtain ⟨c0, cs0, he⟩ : ∃ c0 cs0, natToChars n.toNat = c0 :: cs0 := by
      cases hq : natToChars n.toNat with
      | nil => exact absurd hq (natToChars_ne_nil _)
      | cons a l => exact ⟨a, l, rfl⟩
    have hc0 : isDigitC c0 = true := natToChars_all_digit n.toNat c0 (by rw [he]; simp)
    rw [he, List.cons_append]
    have hskip : skipWs (c0 :: (cs0 ++ rest)) = c0 :: (cs0 ++ rest) :=
      skipWs_not_space _ (fun c hc => by
        simp only [List.head?] at hc
        cases hc
        exact digit_not_space c0 hc0)
    simp only [parseIntC, hskip]
    rw [if_neg (digit_ne_dash c0 hc0), if_neg (digit_ne_plus c0 hc0), if_pos hc0]
    rw [← List.cons_append, ← he, parseDigits_natToChars n.toNat 0 rest hrd]
    dsimp only
    have htn : ((n.toNat : ℤ)) = n := by omega
    rw [Nat.zero_mul, Nat.zero_add, htn]

/-- The scan set reads exactly a short newline-free field up to the
newline. -/
theorem takeNonNl_exact : ∀ (d : List Char) (k : ℕ) (r : List Char), d.length ≤ k →
    (∀ c ∈ d, c ≠ '\n') → takeNonNl k (d ++ '\n' :: r) = (d, '\n' :: r) := by
  intro d
  induction d with
  | nil =>
    intro k r _ _
    cases k with
    | zero => rfl
    | succ k' => simp [takeNonNl]
  | cons c cs ih =>
    intro k r hk hnl
    obtain ⟨k', rfl⟩ : ∃ k', k = k' + 1 := by
      refine ⟨k - 1, ?_⟩
      simp only [List.length_cons] at hk
      omega
    have hc : c ≠ '\n' := hnl c (by simp)
    simp only [List.cons_append, takeNonNl, hc, if_false, List.append_eq]
    rw [ih k' r (by simp only [List.length_cons] at hk; omega)
      (fun x hx => hnl x (by simp [hx]))]

/-- One full `fscanf` round on one serialized record: the record is
recovered and the head of the remainder (after the `\n` directive's
whitespace skip) is the rest of the file. -/
theorem parseRecord_serialized (r : ScoreRecord) (rest : List Char)
    (hd1 : r.date ≠ []) (hd2 : r.date.length ≤ 19) (hd3 : ∀ c ∈ r.date, c ≠ '\n') :
    parseRecord (intToChars r.score ++ ',' :: (r.date ++ '\n' :: rest)) =
      some (r, skipWs rest) := by
  have hint := parseIntC_intToChars r.score (',' :: (r.date ++ '\n' :: rest))
    (fun c hc => by
      simp only [List.head?] at hc
      cases hc
      decide)
  simp only [parseRecord, hint, eq_self_iff_true, if_true]
  have hdate : parseDateC (r.date ++ '\n' :: rest) = some (r.date, '\n' :: rest) := by
    rw [parseDateC]
    rw [takeNonNl_exact r.date 19 rest hd2 hd3]
    rw [if_neg hd1]
  simp only [hdate]
  have hws : skipWs ('\n' :: rest) = skipWs rest := by
    rw [skipWs, if_pos (by decide : isSpaceC '\n' = true)]
  rw [hws]

/-- The serialized leaderboard never starts with whitespace: its head
is a digit or the minus sign. -/
theorem saveScores_head (l : List ScoreRecord) :
    ∀ c, (saveScoresChars l).head? = some c → isDigitC c = true ∨ c = '-' := by
  cases l with
  | nil => intro c hc; simp [saveScoresChars] at hc
  | cons r tl =>
    intro c hc
    have he : saveScoresChars (r :: tl) =
        intToChars r.score ++ ',' :: (r.date ++ '\n' :: saveScoresChars tl) := rfl
    rw [he] at hc
    by_cases hn : r.score < 0
    · rw [intToChars, if_pos hn] at hc
      simp only [List.cons_append, List.head?] at hc
      have hcc : c = '-' := by
        injection hc with h
        exact h.symm
      exact Or.inr hcc
    · rw [intToChars, if_neg hn] at hc
      obtain ⟨c0, cs0, hq⟩ : ∃ c0 cs0, natToChars r.score.toNat = c0 :: cs0 := by
        cases hq : natToChars r.score.toNat with
        | nil => exact absurd hq (natToChars_ne_nil _)
        | cons a l => exact ⟨a, l, rfl⟩
      rw [hq] at hc
      simp only [List.cons_append, List.head?] at hc
      have hcc : c = c0 := by
        injection hc with h
        exact h.symm
      subst hcc
      exact Or.inl (natToChars_all_digit r.score.toNat c (by rw [hq]; simp))

/-- The bounded read loop inverts serialization. -/
theorem loadScoresAux_saveScores : ∀ (l : List ScoreRecord) (k : ℕ), l.length ≤ k →
    (∀ r ∈ l, r.date ≠ [] ∧ r.date.length ≤ 19 ∧ ∀ c ∈ r.date, c ≠ '\n') →
    loadScoresAux k (saveScoresChars l) = l := by
  intro l
  induction l with
  | nil =>
    intro k _ _
    cases k with
    | zero => rfl
    | succ k' => simp [loadScoresAux, parseRecord, parseIntC, skipWs, saveScoresChars]
  | cons r tl ih =>
    intro k hk hdates
    obtain ⟨k', rfl⟩ : ∃ k', k = k' + 1 := by
      refine ⟨k - 1, ?_⟩
      simp only [List.length_cons] at hk
      omega
    have hd := hdates r (by simp)
    have hrec := parseRecord_serialized r (saveScoresChars tl) hd.1 hd.2.1 hd.2.2
    have hskip : skipWs (saveScoresChars tl) = saveScoresChars tl := by
      apply skipWs_not_space
      intro c hc
      rcases saveScores_head tl c hc with h | h
      · exact digit_not_space c h
      · rw [h]; decide
    have hser : saveScoresChars (r :: tl) =
        intToChars r.score ++ ',' :: (r.date ++ '\n' :: saveScoresChars tl) := rfl
    rw [hser]
    simp only [loadScoresAux, hrec, hskip]
    rw [ih k' (by simp only [List.length_cons] at hk; omega)
      (fun x hx => hdates x (by simp [hx]))]

/-- Claim C9: for a leaderboard of at most 10 records whose dates are
non-empty, newline-free and at most 19 characters, writing with
`saveScores` and reloading with `loadScores` returns the identical
ordered sequence. -/
theorem leaderboard_round_trip (l : List ScoreRecord) (hlen : l.length ≤ MAX_SCORES)
    (hdates : ∀ r ∈ l, r.date ≠ [] ∧ r.date.length ≤ 19 ∧ ∀ c ∈ r.date, c ≠ '\n') :
    loadScoresChars (saveScoresChars l) = l :=
  loadScoresAux_saveScores l MAX_SCORES hlen hdates

/-- Witness for `leaderboard_round_trip` at concrete inputs. -/
theorem leaderboard_round_trip_witness :
    ([⟨12, ['2', '0', '2', '4', '-', '0', '1']⟩, ⟨5, ['a']⟩] : List ScoreRecord).length ≤
        MAX_SCORES ∧
      loadScoresChars (saveScoresChars
          [⟨12, ['2', '0', '2', '4', '-', '0', '1']⟩, ⟨5, ['a']⟩]) =
        [⟨12, ['2', '0', '2', '4', '-', '0', '1']⟩, ⟨5, ['a']⟩] :=
  ⟨by decide,
    leaderboard_round_trip [⟨12, ['2', '0', '2', '4', '-', '0', '1']⟩, ⟨5, ['a']⟩]
      (by decide) (by decide)⟩

end NinjaFruit
